import Mathlib

/-!
# dxdy quiz server: room registry, lifecycle and scoring

A shallow embedding of `server.js`.  The module-level `rooms` object becomes an explicit
value threaded through every socket event handler; each handler returns the new registry
together with the messages it emitted, in order.

Modelling conventions.
* JavaScript numbers are exact rationals; `Math.round x` is `⌊x + 1/2⌋`.
* A JavaScript object is an association list in property order.  Socket ids are not
  array indices, so objects keyed by socket id are in insertion order.  Room codes are
  canonical decimal numerals, so the `rooms` object is in ascending numeric order; a room
  code is represented by the number it spells.
* `Date.now()` and the values returned by `Math.random()` are inputs of the handler.
* A handler that throws, or whose loop does not end, yields a `Failure`.
-/

namespace Dxdy

abbrev SocketId := String
abbrev RoomCode := Nat

/-! ## Objects as ordered association lists -/

namespace Obj

variable {κ : Type} {α : Type} [DecidableEq κ]

/-- Property read `o[k]`; `none` stands for `undefined`. -/
def get? : List (κ × α) → κ → Option α
  | [], _ => none
  | (k', v) :: rest, k => if k' = k then some v else get? rest k

/-- Truthiness of `o[k]` for objects whose values are themselves objects. -/
def has (o : List (κ × α)) (k : κ) : Bool := (get? o k).isSome

/-- Property write `o[k] = v`: an existing key keeps its position, a new key goes last. -/
def set : List (κ × α) → κ → α → List (κ × α)
  | [], k, v => [(k, v)]
  | (k', v') :: rest, k, v => if k' = k then (k, v) :: rest else (k', v') :: set rest k v

/-- Property removal `delete o[k]`. -/
def delete (o : List (κ × α)) (k : κ) : List (κ × α) := o.filter (fun e => decide (e.1 ≠ k))

/-- The keys, `Object.keys(o)`. -/
def keys (o : List (κ × α)) : List κ := o.map Prod.fst

/-- The values, `Object.values(o)`. -/
def values (o : List (κ × α)) : List α := o.map Prod.snd

end Obj

/-! ## Data model -/

structure Question where
  question : String
  choices : List (String × String)
  answer : String
  explanation : Option String
  deriving DecidableEq, Repr

structure Test where
  questions : List Question
  deriving DecidableEq, Repr

structure Player where
  socketId : SocketId
  displayName : String
  deriving DecidableEq, Repr

structure Answer where
  answer : String
  time : ℚ
  correct : Bool
  points : ℚ
  deriving DecidableEq, Repr

structure Room where
  code : RoomCode
  hostSocketId : SocketId
  testId : String
  test : Test
  currentQuestionIndex : Int
  gameStarted : Bool
  gameEnded : Bool
  players : List (SocketId × Player)
  playerAnswers : List (SocketId × Answer)
  playerScores : List (SocketId × ℚ)
  questionStartTime : Option Int
  maxPossiblePoints : Int
  deriving DecidableEq, Repr

/-- The module-level `rooms` object. -/
abbrev Rooms := List (RoomCode × Room)

/-- The module-level `tests` object, filled once by `loadTests`. -/
abbrev Tests := List (String × Test)

structure ScoreEntry where
  displayName : String
  score : ℚ
  deriving DecidableEq, Repr

/-- Delivery scope of an emitted message: `socket.emit` and `io.to(socketId)` address one
connection, `io.to(roomCode)` addresses the connections joined to the room. -/
inductive Target where
  | socket (id : SocketId)
  | room (code : RoomCode)
  deriving DecidableEq, Repr

inductive Msg where
  | error (message : String)
  | roomCreated (roomCode : RoomCode)
  | roomJoined (roomCode : RoomCode)
  | playerJoined (playerId : SocketId) (displayName : String) (playerCount : Nat)
  | playerLeft (playerId : SocketId) (playerCount : Nat)
  | hostDisconnected
  | questionStarted (questionIndex : Int) (question : Option Question) (totalQuestions : Nat)
      (startTime : Int)
  | gameEnded (finalScores : List (SocketId × ScoreEntry))
  | leaderboardUpdate (scores : List (SocketId × ScoreEntry)) (maxPossiblePoints : Int)
  | answerReceived (locked : Bool) (correct : Bool) (points : ℚ) (totalPoints : ℚ)
      (maxPossiblePoints : Int) (selectedAnswer : String)
  | playerAnswered (playerId : SocketId) (displayName : String) (answeredCount : Nat)
      (totalPlayers : Nat)
  | roomRole (isHost : Bool) (isPlayer : Bool) (playerCount : Nat) (gameStarted : Bool)
      (gameEnded : Bool) (currentQuestionIndex : Int) (currentPoints : Option ℚ)
      (maxPossiblePoints : Int)
  deriving DecidableEq, Repr

abbrev Emit := Target × Msg

inductive Failure where
  | typeError
  | randomExhausted
  deriving DecidableEq, Repr

/-- Outcome of one handler run: the registry afterwards and the messages emitted. -/
abbrev Result := Except Failure (Rooms × List Emit)

/-! ## Numeric helpers -/

/-- `Math.round`: nearest integer, halves towards plus infinity. -/
def mathRound (x : ℚ) : Int := ⌊x + 1 / 2⌋

/-- Lines 302-311 of the `submit-answer` handler: the award for one answer. -/
def awardedPoints (elapsedSeconds : ℚ) (isCorrect : Bool) : ℚ :=
  let points : ℚ :=
    if elapsedSeconds ≤ 60 then
      if isCorrect then 10 - elapsedSeconds / 6 else -3 + elapsedSeconds / 20
    else 0
  (mathRound (points * 100) : ℚ) / 100

/-- Lines 314-317 of the `submit-answer` handler: the new entry of `playerScores`. -/
def accumulate (playerScores : List (SocketId × ℚ)) (socketId : SocketId) (points : ℚ) :
    List (SocketId × ℚ) :=
  let playerScores :=
    match Obj.get? playerScores socketId with
    | none => Obj.set playerScores socketId 0
    | some s => if s = 0 then Obj.set playerScores socketId 0 else playerScores
  let old := (Obj.get? playerScores socketId).getD 0
  Obj.set playerScores socketId ((mathRound ((old + points) * 100) : ℚ) / 100)

/-- Indexing `questions[i]`; `none` stands for `undefined`. -/
def questionAt (questions : List Question) (i : Int) : Option Question :=
  if i < 0 then none else questions[i.toNat]?

/-! ## calculateScores -/

/-- Insertion of one element in front of the first element it does not have to follow. -/
def sortInsert {α : Type} (cmp : α → α → ℚ) (a : α) : List α → List α
  | [] => [a]
  | b :: rest => if cmp a b ≤ 0 then a :: b :: rest else b :: sortInsert cmp a rest

/-- `Array.prototype.sort(cmp)`, a stable sort: `a` stays in front of a later `b` unless
`cmp a b > 0`. -/
def arraySort {α : Type} (cmp : α → α → ℚ) : List α → List α
  | [] => []
  | a :: rest => sortInsert cmp a (arraySort cmp rest)

def calculateScores (room : Room) : List (SocketId × ScoreEntry) :=
  let scores : List (SocketId × ScoreEntry) :=
    room.players.foldl
      (fun scores e =>
        Obj.set scores e.1
          { displayName := e.2.displayName
            score := (Obj.get? room.playerScores e.1).getD 0 })
      []
  let sortedScores := arraySort (fun a b => b.2.score - a.2.score) scores
  sortedScores.foldl (fun sortedScoresObj e => Obj.set sortedScoresObj e.1 e.2) []

/-! ## generateRoomCode -/

/-- One value returned by `Math.random()`: a number in `[0, 1)`. -/
structure Draw where
  val : ℚ
  nonneg : 0 ≤ val
  lt_one : val < 1

/-- The candidate `Math.floor(1000 + Math.random() * 9000).toString()`. -/
def candidateCode (r : Draw) : RoomCode := (⌊(1000 : ℚ) + r.val * 9000⌋).toNat

/-- The `do ... while (rooms[code])` loop, run on the values that successive calls of
`Math.random()` return.  `none`: the loop is still running when these are used up. -/
def generateRoomCode (rooms : Rooms) : List Draw → Option RoomCode
  | [] => none
  | r :: rest =>
    let code := candidateCode r
    if Obj.has rooms code then generateRoomCode rooms rest else some code

/-- Property write `rooms[code] = room` for a room code: integer-like keys of an object
are kept in ascending numeric order. -/
def setRoom : Rooms → RoomCode → Room → Rooms
  | [], code, room => [(code, room)]
  | (c, r) :: rest, code, room =>
    if code < c then (code, room) :: (c, r) :: rest
    else if code = c then (code, room) :: rest
    else (c, r) :: setRoom rest code room

/-! ## Socket event handlers

Each handler takes the registry, the id of the socket the event arrived on and the
payload fields.  Mutating a room object found by `rooms[roomCode]` is a write of the
changed room at that key. -/

/-- The room object built by the `host-room` handler. -/
def newRoom (roomCode : RoomCode) (socketId : SocketId) (testId : String) (test : Test) :
    Room :=
  { code := roomCode
    hostSocketId := socketId
    testId := testId
    test := test
    currentQuestionIndex := -1
    gameStarted := false
    gameEnded := false
    players := []
    playerAnswers := []
    playerScores := []
    questionStartTime := none
    maxPossiblePoints := 0 }

def hostRoom (tests : Tests) (rooms : Rooms) (socketId : SocketId) (testId : String)
    (draws : List Draw) : Result :=
  match Obj.get? tests testId with
  | none => .ok (rooms, [(.socket socketId, .error "Invalid test selected")])
  | some test =>
    match generateRoomCode rooms draws with
    | none => .error .randomExhausted
    | some roomCode =>
      .ok (setRoom rooms roomCode (newRoom roomCode socketId testId test),
        [(.socket socketId, .roomCreated roomCode)])

def joinRoom (rooms : Rooms) (socketId : SocketId) (roomCode : RoomCode)
    (displayName : String) : Result :=
  match Obj.get? rooms roomCode with
  | none => .ok (rooms, [(.socket socketId, .error "Room not found")])
  | some room =>
    if room.gameEnded then .ok (rooms, [(.socket socketId, .error "Game has ended")])
    else
      let existingNames := (Obj.values room.players).map (fun p => p.displayName)
      if displayName ∈ existingNames then
        .ok (rooms, [(.socket socketId, .error "Display name already taken")])
      else
        let room :=
          { room with
            players :=
              Obj.set room.players socketId
                { socketId := socketId, displayName := displayName } }
        .ok (Obj.set rooms roomCode room,
          [(.socket socketId, .roomJoined roomCode),
           (.room roomCode,
             .playerJoined socketId displayName (Obj.keys room.players).length)])

def leaveRoom (rooms : Rooms) (socketId : SocketId) (roomCode : RoomCode) : Result :=
  match Obj.get? rooms roomCode with
  | none => .ok (rooms, [])
  | some room =>
    if room.hostSocketId = socketId then
      .ok (Obj.delete rooms roomCode, [(.room roomCode, .hostDisconnected)])
    else if Obj.has room.players socketId then
      let room :=
        { room with
          players := Obj.delete room.players socketId
          playerAnswers := Obj.delete room.playerAnswers socketId }
      .ok (Obj.set rooms roomCode room,
        [(.room roomCode, .playerLeft socketId (Obj.keys room.players).length)])
    else .ok (rooms, [])

def startGame (rooms : Rooms) (socketId : SocketId) (roomCode : RoomCode) (now : Int) :
    Result :=
  match Obj.get? rooms roomCode with
  | none => .ok (rooms, [(.socket socketId, .error "Unauthorized")])
  | some room =>
    if room.hostSocketId ≠ socketId then
      .ok (rooms, [(.socket socketId, .error "Unauthorized")])
    else
      let room :=
        { room with
          gameStarted := true
          currentQuestionIndex := 0
          playerAnswers := []
          playerScores :=
            (Obj.keys room.players).foldl (fun scores playerId => Obj.set scores playerId 0) []
          maxPossiblePoints := (room.test.questions.length : Int) * 10
          questionStartTime := some now }
      let question := questionAt room.test.questions 0
      .ok (Obj.set rooms roomCode room,
        [(.room roomCode, .questionStarted 0 question room.test.questions.length now)])

def advanceQuestion (rooms : Rooms) (socketId : SocketId) (roomCode : RoomCode) (now : Int) :
    Result :=
  match Obj.get? rooms roomCode with
  | none => .ok (rooms, [(.socket socketId, .error "Unauthorized")])
  | some room =>
    if room.hostSocketId ≠ socketId then
      .ok (rooms, [(.socket socketId, .error "Unauthorized")])
    else
      let questionsAnswered := room.currentQuestionIndex + 1
      let maxPossiblePoints := questionsAnswered * 10
      if room.currentQuestionIndex ≥ (room.test.questions.length : Int) - 1 then
        let room := { room with gameEnded := true }
        .ok (Obj.set rooms roomCode room,
          [(.room roomCode, .gameEnded (calculateScores room)),
           (.socket room.hostSocketId,
             .leaderboardUpdate (calculateScores room) maxPossiblePoints)])
      else
        let room :=
          { room with
            currentQuestionIndex := room.currentQuestionIndex + 1
            playerAnswers := []
            questionStartTime := some now }
        let question := questionAt room.test.questions room.currentQuestionIndex
        .ok (Obj.set rooms roomCode room,
          [(.room roomCode,
             .questionStarted room.currentQuestionIndex question room.test.questions.length now),
           (.socket room.hostSocketId,
             .leaderboardUpdate (calculateScores room) maxPossiblePoints)])

def submitAnswer (rooms : Rooms) (socketId : SocketId) (roomCode : RoomCode)
    (answer : String) (now : Int) : Result :=
  match Obj.get? rooms roomCode with
  | none => .ok (rooms, [(.socket socketId, .error "Unauthorized")])
  | some room =>
    match Obj.get? room.players socketId with
    | none => .ok (rooms, [(.socket socketId, .error "Unauthorized")])
    | some player =>
      if room.currentQuestionIndex < 0 || !room.gameStarted || room.gameEnded then
        .ok (rooms, [(.socket socketId, .error "Game not in progress")])
      else if Obj.has room.playerAnswers socketId then .ok (rooms, [])
      else
        let currentTime := now
        let elapsedSeconds : ℚ :=
          ((currentTime - room.questionStartTime.getD 0 : Int) : ℚ) / 1000
        match questionAt room.test.questions room.currentQuestionIndex with
        | none => .error .typeError
        | some currentQuestion =>
          let isCorrect := decide (answer = currentQuestion.answer)
          let points := awardedPoints elapsedSeconds isCorrect
          let playerScores := accumulate room.playerScores socketId points
          let room :=
            { room with
              playerScores := playerScores
              playerAnswers :=
                Obj.set room.playerAnswers socketId
                  { answer := answer, time := elapsedSeconds, correct := isCorrect,
                    points := points } }
          let questionsAnswered := room.currentQuestionIndex + 1
          let maxPossiblePoints := questionsAnswered * 10
          .ok (Obj.set rooms roomCode room,
            [(.socket socketId,
               .answerReceived true isCorrect points
                 ((Obj.get? room.playerScores socketId).getD 0) maxPossiblePoints answer),
             (.socket room.hostSocketId,
               .playerAnswered socketId player.displayName
                 (Obj.keys room.playerAnswers).length (Obj.keys room.players).length),
             (.socket room.hostSocketId,
               .leaderboardUpdate (calculateScores room) maxPossiblePoints)])

def endGame (rooms : Rooms) (socketId : SocketId) (roomCode : RoomCode) : Result :=
  match Obj.get? rooms roomCode with
  | none => .ok (rooms, [(.socket socketId, .error "Unauthorized")])
  | some room =>
    if room.hostSocketId ≠ socketId then
      .ok (rooms, [(.socket socketId, .error "Unauthorized")])
    else
      let room := { room with gameEnded := true }
      .ok (Obj.set rooms roomCode room, [(.room roomCode, .gameEnded (calculateScores room))])

def getRoomRole (rooms : Rooms) (socketId : SocketId) (roomCode : RoomCode) : Result :=
  match Obj.get? rooms roomCode with
  | none => .ok (rooms, [(.socket socketId, .error "Room not found")])
  | some room =>
    let isHost := decide (room.hostSocketId = socketId)
    let isPlayer := Obj.has room.players socketId
    let questionsAnswered :=
      if room.currentQuestionIndex ≥ 0 then room.currentQuestionIndex + 1 else 0
    let maxPossiblePoints := questionsAnswered * 10
    .ok (rooms,
      [(.socket socketId,
         .roomRole isHost isPlayer (Obj.keys room.players).length room.gameStarted
           room.gameEnded room.currentQuestionIndex
           (if isPlayer then some ((Obj.get? room.playerScores socketId).getD 0) else none)
           maxPossiblePoints)])

/-- The `for (const roomCode in rooms)` loop of the `disconnect` handler, over the rooms
not yet visited: the loop stops at the first room the socket hosts. -/
def disconnectLoop (socketId : SocketId) : Rooms → Rooms × List Emit
  | [] => ([], [])
  | (roomCode, room) :: rest =>
    if room.hostSocketId = socketId then (rest, [(.room roomCode, .hostDisconnected)])
    else if Obj.has room.players socketId then
      let room :=
        { room with
          players := Obj.delete room.players socketId
          playerAnswers := Obj.delete room.playerAnswers socketId }
      let later := disconnectLoop socketId rest
      ((roomCode, room) :: later.1,
        (.room roomCode, .playerLeft socketId (Obj.keys room.players).length) :: later.2)
    else
      let later := disconnectLoop socketId rest
      ((roomCode, room) :: later.1, later.2)

def disconnect (rooms : Rooms) (socketId : SocketId) : Result :=
  .ok (disconnectLoop socketId rooms)

/-! ## The server as a transition system -/

/-- An inbound event with the values the handler reads from its environment. -/
inductive Event where
  | hostRoom (testId : String) (draws : List Draw)
  | joinRoom (roomCode : RoomCode) (displayName : String)
  | leaveRoom (roomCode : RoomCode)
  | startGame (roomCode : RoomCode) (now : Int)
  | advanceQuestion (roomCode : RoomCode) (now : Int)
  | submitAnswer (roomCode : RoomCode) (answer : String) (now : Int)
  | endGame (roomCode : RoomCode)
  | getRoomRole (roomCode : RoomCode)
  | revealAnswer (roomCode : RoomCode)
  | disconnect

/-- Dispatch of one event arriving on socket `socketId`.  No listener is registered for
`reveal-answer`, so that event is dropped. -/
def handle (tests : Tests) (rooms : Rooms) (socketId : SocketId) : Event → Result
  | .hostRoom testId draws => hostRoom tests rooms socketId testId draws
  | .joinRoom roomCode displayName => joinRoom rooms socketId roomCode displayName
  | .leaveRoom roomCode => leaveRoom rooms socketId roomCode
  | .startGame roomCode now => startGame rooms socketId roomCode now
  | .advanceQuestion roomCode now => advanceQuestion rooms socketId roomCode now
  | .submitAnswer roomCode answer now => submitAnswer rooms socketId roomCode answer now
  | .endGame roomCode => endGame rooms socketId roomCode
  | .getRoomRole roomCode => getRoomRole rooms socketId roomCode
  | .revealAnswer _ => .ok (rooms, [])
  | .disconnect => disconnect rooms socketId

/-- Registries the server can be in: it starts empty and changes only by handling events
that run to completion. -/
inductive Reachable (tests : Tests) : Rooms → Prop where
  | init : Reachable tests []
  | step {rooms rooms' : Rooms} {out : List Emit} (socketId : SocketId) (event : Event) :
      Reachable tests rooms → handle tests rooms socketId event = .ok (rooms', out) →
      Reachable tests rooms'

/-! ## Example data -/

def sampleQuestions : List Question :=
  [ { question := "2 + 2", choices := [("a", "3"), ("b", "4")], answer := "b",
      explanation := none },
    { question := "3 * 3", choices := [("a", "9"), ("b", "6")], answer := "a",
      explanation := some "nine" } ]

def sampleTest : Test := { questions := sampleQuestions }

/-- A room in progress on its first question, with two players and no answer yet. -/
def sampleRoom : Room :=
  { code := 1234
    hostSocketId := "host"
    testId := "algebra"
    test := sampleTest
    currentQuestionIndex := 0
    gameStarted := true
    gameEnded := false
    players := [("ann", { socketId := "ann", displayName := "Ann" }),
                ("bob", { socketId := "bob", displayName := "Bob" })]
    playerAnswers := []
    playerScores := [("ann", 0), ("bob", 0)]
    questionStartTime := some 5000
    maxPossiblePoints := 20 }

def sampleRooms : Rooms := [(1234, sampleRoom)]

/-! ## Facts about objects -/

namespace Obj

variable {κ : Type} {α : Type} [DecidableEq κ]

theorem get?_set_self (o : List (κ × α)) (k : κ) (v : α) : get? (set o k v) k = some v := by
  induction o with
  | nil => simp [set, get?]
  | cons e rest ih =>
    obtain ⟨k', v'⟩ := e
    by_cases h : k' = k
    · simp [set, get?, h]
    · simp [set, get?, h, ih]

theorem get?_set_of_ne (o : List (κ × α)) {k j : κ} (v : α) (h : k ≠ j) :
    get? (set o k v) j = get? o j := by
  induction o with
  | nil => simp [set, get?, h]
  | cons e rest ih =>
    obtain ⟨k', v'⟩ := e
    by_cases hk : k' = k
    · subst hk
      simp [set, get?, h]
    · by_cases hj : k' = j
      · subst hj
        simp [set, get?, hk]
      · simp [set, get?, hk, hj, ih]

end Obj

/-! ## Scoring -/

theorem mathRound_intCast (n : Int) : mathRound (n : ℚ) = n := by
  unfold mathRound
  rw [Int.floor_eq_iff]
  constructor <;> norm_num

/-- The unrounded award of the scoring rule at elapsed time `e`. -/
def rawPoints (e : ℚ) (correct : Bool) : ℚ :=
  if e > 60 then 0 else if correct then 10 - e / 6 else -3 + e / 20

theorem awardedPoints_eq (e : ℚ) (correct : Bool) :
    awardedPoints e correct = (mathRound (rawPoints e correct * 100) : ℚ) / 100 := by
  unfold awardedPoints rawPoints
  by_cases h : e ≤ 60
  · have h' : ¬ e > 60 := not_lt.mpr h
    simp [h, h']
  · have h' : e > 60 := not_le.mp h
    simp [h, h']

/-- What an accepted first submission does, with every intermediate value named. -/
theorem submitAnswer_accepted {rooms : Rooms} {socketId : SocketId} {roomCode : RoomCode}
    {room : Room} {player : Player} {q : Question} (answer : String) (now : Int)
    (hroom : Obj.get? rooms roomCode = some room)
    (hplayer : Obj.get? room.players socketId = some player)
    (hidx : 0 ≤ room.currentQuestionIndex) (hstarted : room.gameStarted = true)
    (hended : room.gameEnded = false)
    (hfirst : Obj.get? room.playerAnswers socketId = none)
    (hq : questionAt room.test.questions room.currentQuestionIndex = some q) :
    submitAnswer rooms socketId roomCode answer now =
      let elapsedSeconds : ℚ := ((now - room.questionStartTime.getD 0 : Int) : ℚ) / 1000
      let isCorrect := decide (answer = q.answer)
      let points := awardedPoints elapsedSeconds isCorrect
      let room' : Room :=
        { room with
          playerScores := accumulate room.playerScores socketId points
          playerAnswers :=
            Obj.set room.playerAnswers socketId
              { answer := answer, time := elapsedSeconds, correct := isCorrect,
                points := points } }
      .ok (Obj.set rooms roomCode room',
        [(.socket socketId,
           .answerReceived true isCorrect points
             ((Obj.get? room'.playerScores socketId).getD 0)
             ((room.currentQuestionIndex + 1) * 10) answer),
         (.socket room.hostSocketId,
           .playerAnswered socketId player.displayName
             (Obj.keys room'.playerAnswers).length (Obj.keys room.players).length),
         (.socket room.hostSocketId,
           .leaderboardUpdate (calculateScores room') ((room.currentQuestionIndex + 1) * 10))]) := by
  have hlt : ¬ room.currentQuestionIndex < 0 := not_lt.mpr hidx
  simp [submitAnswer, hroom, hplayer, hlt, hstarted, hended, Obj.has, hfirst, hq]

/-- The sample room after Ann answered its first question correctly after 30 s. -/
def sampleAnsweredRoom : Room :=
  { sampleRoom with
    playerAnswers := [("ann", { answer := "b", time := 30, correct := true, points := 5 })]
    playerScores := [("ann", 5), ("bob", 0)] }

theorem submitAnswer_repeat_ignored_run {rooms : Rooms} {socketId : SocketId}
    {roomCode : RoomCode} {room : Room} {player : Player} {previous : Answer}
    {answer : String} {now : Int}
    (hroom : Obj.get? rooms roomCode = some room)
    (hplayer : Obj.get? room.players socketId = some player)
    (hidx : 0 ≤ room.currentQuestionIndex) (hstarted : room.gameStarted = true)
    (hended : room.gameEnded = false)
    (hprevious : Obj.get? room.playerAnswers socketId = some previous) :
    submitAnswer rooms socketId roomCode answer now = .ok (rooms, []) := by
  have hlt : ¬ room.currentQuestionIndex < 0 := not_lt.mpr hidx
  simp [submitAnswer, hroom, hplayer, hlt, hstarted, hended, Obj.has, hprevious]

/-- C2. In a room in progress, a further `submit-answer` from a registered player who
already has an Answer for the current question, with any answer value and at any time,
returns the registry exactly as it was (scores and stored answers included) and emits
no message. -/
theorem submitAnswer_repeat_ignored (rooms : Rooms) (socketId : SocketId)
    (roomCode : RoomCode) (room : Room) (player : Player) (previous : Answer)
    (answer : String) (now : Int)
    (hroom : Obj.get? rooms roomCode = some room)
    (hplayer : Obj.get? room.players socketId = some player)
    (hidx : 0 ≤ room.currentQuestionIndex) (hstarted : room.gameStarted = true)
    (hended : room.gameEnded = false)
    (hprevious : Obj.get? room.playerAnswers socketId = some previous) :
    submitAnswer rooms socketId roomCode answer now = .ok (rooms, []) :=
  submitAnswer_repeat_ignored_run hroom hplayer hidx hstarted hended hprevious

theorem submitAnswer_repeat_ignored_witness :
    submitAnswer [(1234, sampleAnsweredRoom)] "ann" 1234 "a" 99000 =
      .ok ([(1234, sampleAnsweredRoom)], []) :=
  submitAnswer_repeat_ignored [(1234, sampleAnsweredRoom)] "ann" 1234 sampleAnsweredRoom
    { socketId := "ann", displayName := "Ann" }
    { answer := "b", time := 30, correct := true, points := 5 } "a" 99000
    rfl rfl (by decide) rfl rfl rfl

/-! ## Accumulation -/

theorem mathRound_eq_iff (x : ℚ) (n : Int) :
    mathRound x = n ↔ (n : ℚ) - 1 / 2 ≤ x ∧ x < (n : ℚ) + 1 / 2 := by
  unfold mathRound
  rw [Int.floor_eq_iff]
  constructor <;> rintro ⟨h1, h2⟩ <;> constructor <;> linarith

theorem get?_accumulate (playerScores : List (SocketId × ℚ)) (socketId : SocketId)
    (points : ℚ) :
    Obj.get? (accumulate playerScores socketId points) socketId =
      some ((mathRound (((Obj.get? playerScores socketId).getD 0 + points) * 100) : ℚ) / 100) := by
  unfold accumulate
  cases h : Obj.get? playerScores socketId with
  | none => simp [Obj.get?_set_self]
  | some s =>
    by_cases hs : s = 0
    · simp [hs, Obj.get?_set_self]
    · simp [hs, h, Obj.get?_set_self]

theorem awardedPoints_at_start : awardedPoints 0 true = 10 := by
  have r1000 : mathRound (1000 : ℚ) = 1000 := by exact_mod_cast mathRound_intCast 1000
  rw [awardedPoints_eq]
  norm_num [rawPoints, r1000]

/-- The room after the mutations of the `start-game` handler. -/
def startedRoom (room : Room) (now : Int) : Room :=
  { room with
    gameStarted := true
    currentQuestionIndex := 0
    playerAnswers := []
    playerScores :=
      (Obj.keys room.players).foldl (fun scores playerId => Obj.set scores playerId 0) []
    maxPossiblePoints := (room.test.questions.length : Int) * 10
    questionStartTime := some now }

/-- The room after the mutations of the "move to next question" branch. -/
def advancedRoom (room : Room) (now : Int) : Room :=
  { room with
    currentQuestionIndex := room.currentQuestionIndex + 1
    playerAnswers := []
    questionStartTime := some now }

theorem startGame_host {rooms : Rooms} {socketId : SocketId} {roomCode : RoomCode}
    {room : Room} (now : Int) (hroom : Obj.get? rooms roomCode = some room)
    (hhost : room.hostSocketId = socketId) :
    startGame rooms socketId roomCode now =
      .ok (Obj.set rooms roomCode (startedRoom room now),
        [(.room roomCode,
           .questionStarted 0 (questionAt room.test.questions 0) room.test.questions.length
             now)]) := by
  simp [startGame, startedRoom, hroom, hhost]

theorem advanceQuestion_host_last {rooms : Rooms} {socketId : SocketId}
    {roomCode : RoomCode} {room : Room} (now : Int)
    (hroom : Obj.get? rooms roomCode = some room) (hhost : room.hostSocketId = socketId)
    (hlast : room.currentQuestionIndex ≥ (room.test.questions.length : Int) - 1) :
    advanceQuestion rooms socketId roomCode now =
      .ok (Obj.set rooms roomCode { room with gameEnded := true },
        [(.room roomCode, .gameEnded (calculateScores { room with gameEnded := true })),
         (.socket room.hostSocketId,
           .leaderboardUpdate (calculateScores { room with gameEnded := true })
             ((room.currentQuestionIndex + 1) * 10))]) := by
  simp [advanceQuestion, hroom, hhost, hlast]

theorem advanceQuestion_host_next {rooms : Rooms} {socketId : SocketId}
    {roomCode : RoomCode} {room : Room} (now : Int)
    (hroom : Obj.get? rooms roomCode = some room) (hhost : room.hostSocketId = socketId)
    (hnext : ¬ room.currentQuestionIndex ≥ (room.test.questions.length : Int) - 1) :
    advanceQuestion rooms socketId roomCode now =
      .ok (Obj.set rooms roomCode (advancedRoom room now),
        [(.room roomCode,
           .questionStarted (room.currentQuestionIndex + 1)
             (questionAt room.test.questions (room.currentQuestionIndex + 1))
             room.test.questions.length now),
         (.socket room.hostSocketId,
           .leaderboardUpdate (calculateScores (advancedRoom room now))
             ((room.currentQuestionIndex + 1) * 10))]) := by
  simp [advanceQuestion, advancedRoom, hroom, hhost, hnext]

theorem endGame_host {rooms : Rooms} {socketId : SocketId} {roomCode : RoomCode}
    {room : Room} (hroom : Obj.get? rooms roomCode = some room)
    (hhost : room.hostSocketId = socketId) :
    endGame rooms socketId roomCode =
      .ok (Obj.set rooms roomCode { room with gameEnded := true },
        [(.room roomCode, .gameEnded (calculateScores { room with gameEnded := true }))]) := by
  simp [endGame, hroom, hhost]

/-- C4. For `start-game`, `advance-question` and `end-game` addressed to an existing
room: a requester other than the room's host gets exactly one message, the Unauthorized
error, addressed to itself, and the registry is returned unchanged; for the room's host
each handler completes and no emitted message is an Unauthorized error. -/
theorem host_actions_authorization (rooms : Rooms) (socketId : SocketId)
    (roomCode : RoomCode) (room : Room) (now : Int)
    (hroom : Obj.get? rooms roomCode = some room) :
    (room.hostSocketId ≠ socketId →
      startGame rooms socketId roomCode now =
        .ok (rooms, [(.socket socketId, .error "Unauthorized")]) ∧
      advanceQuestion rooms socketId roomCode now =
        .ok (rooms, [(.socket socketId, .error "Unauthorized")]) ∧
      endGame rooms socketId roomCode =
        .ok (rooms, [(.socket socketId, .error "Unauthorized")])) ∧
    (room.hostSocketId = socketId →
      (∃ rooms' out, startGame rooms socketId roomCode now = .ok (rooms', out) ∧
        ∀ m ∈ out, m.2 ≠ .error "Unauthorized") ∧
      (∃ rooms' out, advanceQuestion rooms socketId roomCode now = .ok (rooms', out) ∧
        ∀ m ∈ out, m.2 ≠ .error "Unauthorized") ∧
      (∃ rooms' out, endGame rooms socketId roomCode = .ok (rooms', out) ∧
        ∀ m ∈ out, m.2 ≠ .error "Unauthorized")) := by
  constructor
  · intro hne
    simp [startGame, advanceQuestion, endGame, hroom, hne]
  · intro heq
    refine ⟨?_, ?_, ?_⟩
    · exact ⟨_, _, startGame_host now hroom heq, by simp⟩
    · by_cases hlast : room.currentQuestionIndex ≥ (room.test.questions.length : Int) - 1
      · exact ⟨_, _, advanceQuestion_host_last now hroom heq hlast, by simp⟩
      · exact ⟨_, _, advanceQuestion_host_next now hroom heq hlast, by simp⟩
    · exact ⟨_, _, endGame_host hroom heq, by simp⟩

theorem host_actions_authorization_witness :
    startGame sampleRooms "ann" 1234 7000 =
        .ok (sampleRooms, [(.socket "ann", .error "Unauthorized")]) ∧
      advanceQuestion sampleRooms "ann" 1234 7000 =
        .ok (sampleRooms, [(.socket "ann", .error "Unauthorized")]) ∧
      endGame sampleRooms "ann" 1234 =
        .ok (sampleRooms, [(.socket "ann", .error "Unauthorized")]) :=
  (host_actions_authorization sampleRooms "ann" 1234 sampleRoom 7000 rfl).1 (by decide)

/-! ## Validation of submit-answer -/

def sampleTests : Tests := [("algebra", sampleTest)]

theorem Obj.has_of_mem_keys {κ α : Type} [DecidableEq κ] (o : List (κ × α)) (k : κ)
    (h : k ∈ Obj.keys o) : Obj.has o k = true := by
  induction o with
  | nil => simp [Obj.keys] at h
  | cons e rest ih =>
    obtain ⟨k', v'⟩ := e
    by_cases hk : k' = k
    · simp [Obj.has, Obj.get?, hk]
    · have hmem : k ∈ Obj.keys rest := by
        simp only [Obj.keys, List.map_cons, List.mem_cons] at h
        rcases h with h | h
        · exact absurd h.symm hk
        · exact h
      have := ih hmem
      simpa [Obj.has, Obj.get?, hk] using this

theorem Obj.get?_eq_none_of_not_mem_keys {κ α : Type} [DecidableEq κ] (o : List (κ × α))
    (k : κ) (h : k ∉ Obj.keys o) : Obj.get? o k = none := by
  induction o with
  | nil => rfl
  | cons e rest ih =>
    obtain ⟨k', v'⟩ := e
    simp only [Obj.keys, List.map_cons, List.mem_cons, not_or] at h
    have hk : ¬ k' = k := fun hk => h.1 hk.symm
    simpa [Obj.get?, hk] using ih h.2

theorem Obj.not_mem_keys_of_get?_eq_none {κ α : Type} [DecidableEq κ] (o : List (κ × α))
    (k : κ) (h : Obj.get? o k = none) : k ∉ Obj.keys o := by
  intro hmem
  have := Obj.has_of_mem_keys o k hmem
  simp [Obj.has, h] at this

theorem generateRoomCode_eq_some {rooms : Rooms} {draws : List Draw} {code : RoomCode}
    (h : generateRoomCode rooms draws = some code) :
    (∃ r ∈ draws, candidateCode r = code) ∧ Obj.get? rooms code = none := by
  induction draws with
  | nil => simp [generateRoomCode] at h
  | cons r rest ih =>
    by_cases hr : Obj.has rooms (candidateCode r) = true
    · simp only [generateRoomCode, hr, if_true] at h
      obtain ⟨⟨r', hr', hcode⟩, hfree⟩ := ih h
      exact ⟨⟨r', List.mem_cons_of_mem _ hr', hcode⟩, hfree⟩
    · simp only [generateRoomCode, hr] at h
      have hcode : candidateCode r = code := by simpa using h
      refine ⟨⟨r, List.mem_cons_self _ _, hcode⟩, ?_⟩
      rw [← hcode]
      simpa [Obj.has] using hr

theorem setRoom_perm (rooms : Rooms) (code : RoomCode) (room : Room)
    (hfree : Obj.get? rooms code = none) :
    (setRoom rooms code room).Perm ((code, room) :: rooms) := by
  induction rooms with
  | nil => simp [setRoom]
  | cons e rest ih =>
    obtain ⟨c, r⟩ := e
    have hc : ¬ c = code := by
      intro h
      simp [Obj.get?, h] at hfree
    have hrest : Obj.get? rest code = none := by simpa [Obj.get?, hc] using hfree
    by_cases h1 : code < c
    · simp [setRoom, h1]
    · have h2 : ¬ code = c := fun h => hc h.symm
      simp only [setRoom, h1, h2, if_false]
      exact ((ih hrest).cons (c, r)).trans (List.Perm.swap _ _ _)

theorem get?_setRoom_of_ne (rooms : Rooms) (code : RoomCode) (room : Room) (c : RoomCode)
    (hne : c ≠ code) : Obj.get? (setRoom rooms code room) c = Obj.get? rooms c := by
  induction rooms with
  | nil =>
    have : ¬ code = c := fun h => hne h.symm
    simp [setRoom, Obj.get?, this]
  | cons e rest ih =>
    obtain ⟨c', r⟩ := e
    have hcc : ¬ code = c := fun h => hne h.symm
    by_cases h1 : code < c'
    · simp [setRoom, h1, Obj.get?, hcc]
    · by_cases h2 : code = c'
      · subst h2
        simp [setRoom, Obj.get?, hcc]
      · by_cases h3 : c' = c
        · subst h3
          simp [setRoom, h1, h2, Obj.get?]
        · simp [setRoom, h1, h2, h3, Obj.get?, ih]

/-- A value of `Math.random()` that leads to the code 1234. -/
def drawTaken : Draw := ⟨26 / 1000, by norm_num, by norm_num⟩

/-- A value of `Math.random()` that leads to the code 5500. -/
def drawFree : Draw := ⟨1 / 2, by norm_num, by norm_num⟩

theorem candidateCode_drawFree : candidateCode drawFree = 5500 := by
  have h : ⌊(1000 : ℚ) + 1 / 2 * 9000⌋ = 5500 := by
    rw [Int.floor_eq_iff]
    constructor <;> norm_num
  show (⌊(1000 : ℚ) + 1 / 2 * 9000⌋).toNat = 5500
  rw [h]
  rfl

theorem Obj.set_of_not_mem_keys {κ α : Type} [DecidableEq κ] (o : List (κ × α)) (k : κ)
    (v : α) (h : k ∉ Obj.keys o) : Obj.set o k v = o ++ [(k, v)] := by
  induction o with
  | nil => rfl
  | cons e rest ih =>
    obtain ⟨k', v'⟩ := e
    simp only [Obj.keys, List.map_cons, List.mem_cons, not_or] at h
    have hk : ¬ k' = k := fun hk => h.1 hk.symm
    simp only [Obj.set, hk, if_false, List.cons_append]
    rw [ih h.2]

/-- Writing the entries of an object with distinct keys, one after the other, into an
object that has none of these keys appends them in order. -/
theorem Obj.foldl_set_eq_append {κ α β : Type} [DecidableEq κ] (f : κ × β → α)
    (l : List (κ × β)) (acc : List (κ × α))
    (h : (Obj.keys acc ++ Obj.keys l).Nodup) :
    l.foldl (fun acc e => Obj.set acc e.1 (f e)) acc = acc ++ l.map (fun e => (e.1, f e)) := by
  induction l generalizing acc with
  | nil => simp
  | cons e rest ih =>
    have hnot : e.1 ∉ Obj.keys acc := by
      intro hmem
      have := (List.nodup_append.mp h).2.2
      exact this hmem (by simp [Obj.keys])
    have hnodup : (Obj.keys (acc ++ [(e.1, f e)]) ++ Obj.keys rest).Nodup := by
      have hperm : (Obj.keys (acc ++ [(e.1, f e)]) ++ Obj.keys rest).Perm
          (Obj.keys acc ++ Obj.keys (e :: rest)) := by
        simp [Obj.keys]
      exact hperm.nodup_iff.mpr h
    simp only [List.foldl_cons]
    rw [Obj.set_of_not_mem_keys _ _ _ hnot, ih _ hnodup]
    simp

theorem sortInsert_perm {α : Type} (cmp : α → α → ℚ) (a : α) (l : List α) :
    (sortInsert cmp a l).Perm (a :: l) := by
  induction l with
  | nil => simp [sortInsert]
  | cons b rest ih =>
    by_cases h : cmp a b ≤ 0
    · simp [sortInsert, h]
    · simp only [sortInsert, h, if_false]
      exact (ih.cons b).trans (List.Perm.swap _ _ _)

theorem arraySort_perm {α : Type} (cmp : α → α → ℚ) (l : List α) :
    (arraySort cmp l).Perm l := by
  induction l with
  | nil => simp [arraySort]
  | cons a rest ih =>
    simp only [arraySort]
    exact (sortInsert_perm cmp a _).trans (ih.cons a)

/-- The comparator `(a, b) => b[1].score - a[1].score` of `calculateScores`. -/
def byScoreDescending (a b : SocketId × ScoreEntry) : ℚ := b.2.score - a.2.score

theorem sortInsert_sorted (a : SocketId × ScoreEntry) (l : List (SocketId × ScoreEntry))
    (h : l.Pairwise (fun x y => y.2.score ≤ x.2.score)) :
    (sortInsert byScoreDescending a l).Pairwise (fun x y => y.2.score ≤ x.2.score) := by
  induction l with
  | nil => simp [sortInsert]
  | cons b rest ih =>
    have hb := List.pairwise_cons.mp h
    by_cases hc : byScoreDescending a b ≤ 0
    · have hba : b.2.score ≤ a.2.score := by
        simpa [byScoreDescending] using hc
      simp only [sortInsert, hc, if_true]
      refine List.pairwise_cons.mpr ⟨?_, h⟩
      intro y hy
      rcases List.mem_cons.mp hy with rfl | hy
      · exact hba
      · exact le_trans (hb.1 y hy) hba
    · have hab : a.2.score ≤ b.2.score := by
        have : ¬ b.2.score ≤ a.2.score := by simpa [byScoreDescending] using hc
        exact le_of_lt (not_le.mp this)
      simp only [sortInsert, hc, if_false]
      refine List.pairwise_cons.mpr ⟨?_, ih hb.2⟩
      intro y hy
      rcases List.mem_cons.mp ((sortInsert_perm _ a rest).mem_iff.mp hy) with rfl | hy
      · exact hab
      · exact hb.1 y hy

theorem arraySort_sorted (l : List (SocketId × ScoreEntry)) :
    (arraySort byScoreDescending l).Pairwise (fun x y => y.2.score ≤ x.2.score) := by
  induction l with
  | nil => simp [arraySort]
  | cons a rest ih => exact sortInsert_sorted a _ ih

theorem sortInsert_filter (v : ℚ) (a : SocketId × ScoreEntry)
    (l : List (SocketId × ScoreEntry)) :
    (sortInsert byScoreDescending a l).filter (fun e => decide (e.2.score = v)) =
      (a :: l).filter (fun e => decide (e.2.score = v)) := by
  induction l with
  | nil => simp [sortInsert]
  | cons b rest ih =>
    by_cases hc : byScoreDescending a b ≤ 0
    · simp [sortInsert, hc]
    · have hlt : a.2.score < b.2.score := by
        have : ¬ b.2.score ≤ a.2.score := by simpa [byScoreDescending] using hc
        exact not_le.mp this
      simp only [sortInsert, hc, if_false]
      rw [List.filter_cons, ih]
      by_cases ha : a.2.score = v
      · have hbv : ¬ b.2.score = v := fun hbv => absurd hlt (by rw [ha, hbv]; exact lt_irrefl v)
        simp [List.filter_cons, ha, hbv]
      · simp [List.filter_cons, ha]

theorem arraySort_filter (v : ℚ) (l : List (SocketId × ScoreEntry)) :
    (arraySort byScoreDescending l).filter (fun e => decide (e.2.score = v)) =
      l.filter (fun e => decide (e.2.score = v)) := by
  induction l with
  | nil => simp [arraySort]
  | cons a rest ih =>
    simp only [arraySort]
    rw [sortInsert_filter, List.filter_cons, List.filter_cons, ih]

/-- One leaderboard entry per player, in the order of the `players` object: the player's
display name and `playerScores[playerId] || 0`. -/
def playerEntries (room : Room) : List (SocketId × ScoreEntry) :=
  room.players.map (fun e =>
    (e.1, { displayName := e.2.displayName, score := (Obj.get? room.playerScores e.1).getD 0 }))

theorem keys_playerEntries (room : Room) :
    Obj.keys (playerEntries room) = Obj.keys room.players := by
  simp [playerEntries, Obj.keys]

theorem calculateScores_eq_arraySort (room : Room) (hkeys : (Obj.keys room.players).Nodup) :
    calculateScores room = arraySort byScoreDescending (playerEntries room) := by
  have h1 : room.players.foldl
      (fun scores e =>
        Obj.set scores e.1
          ({ displayName := e.2.displayName
             score := (Obj.get? room.playerScores e.1).getD 0 } : ScoreEntry))
      [] = playerEntries room := by
    rw [Obj.foldl_set_eq_append
      (fun e => ({ displayName := e.2.displayName
                   score := (Obj.get? room.playerScores e.1).getD 0 } : ScoreEntry))
      room.players [] (by simpa [Obj.keys] using hkeys)]
    simp [playerEntries]
  have hsorted : (Obj.keys (arraySort byScoreDescending (playerEntries room))).Nodup := by
    have hperm := (arraySort_perm byScoreDescending (playerEntries room)).map Prod.fst
    have : (Obj.keys (playerEntries room)).Nodup := by
      rw [keys_playerEntries]; exact hkeys
    exact hperm.nodup_iff.mpr this
  have h2 := Obj.foldl_set_eq_append (fun e : SocketId × ScoreEntry => e.2)
    (arraySort byScoreDescending (playerEntries room)) [] (by simpa [Obj.keys] using hsorted)
  unfold calculateScores
  simp only [h1]
  exact h2.trans (by simp)

theorem calculateScores_perm_sorted (room : Room)
    (hkeys : (Obj.keys room.players).Nodup) :
    (calculateScores room).Perm (playerEntries room) ∧
    (calculateScores room).Pairwise (fun a b => a.2.score ≥ b.2.score) := by
  rw [calculateScores_eq_arraySort room hkeys]
  exact ⟨arraySort_perm byScoreDescending (playerEntries room), arraySort_sorted _⟩

/-- C7. For a room whose `players` object has distinct keys, `calculateScores` returns
exactly the players' entries (same keys, each once, each with the player's display name
and `playerScores` value, 0 when there is none), ordered so that every entry's score is at
least that of every later entry, and for each score value the entries with that score are
in the order of the `players` object. -/
theorem calculateScores_sorted_stable (room : Room)
    (hkeys : (Obj.keys room.players).Nodup) :
    (calculateScores room).Perm (playerEntries room) ∧
    (Obj.keys (calculateScores room)).Nodup ∧
    (∀ id, id ∈ Obj.keys (calculateScores room) ↔ id ∈ Obj.keys room.players) ∧
    (calculateScores room).Pairwise (fun a b => a.2.score ≥ b.2.score) ∧
    (∀ v : ℚ, (calculateScores room).filter (fun e => decide (e.2.score = v)) =
      (playerEntries room).filter (fun e => decide (e.2.score = v))) := by
  rw [calculateScores_eq_arraySort room hkeys]
  have hperm := arraySort_perm byScoreDescending (playerEntries room)
  have hk := (hperm.map Prod.fst)
  refine ⟨hperm, ?_, ?_, arraySort_sorted _, fun v => arraySort_filter v _⟩
  · exact hk.nodup_iff.mpr (by rw [← keys_playerEntries] at hkeys; exact hkeys)
  · intro id
    rw [← keys_playerEntries]
    exact hk.mem_iff

theorem calculateScores_sorted_stable_witness :
    (calculateScores sampleAnsweredRoom).Perm (playerEntries sampleAnsweredRoom) ∧
    (Obj.keys (calculateScores sampleAnsweredRoom)).Nodup ∧
    (∀ id, id ∈ Obj.keys (calculateScores sampleAnsweredRoom) ↔
      id ∈ Obj.keys sampleAnsweredRoom.players) ∧
    (calculateScores sampleAnsweredRoom).Pairwise (fun a b => a.2.score ≥ b.2.score) ∧
    (∀ v : ℚ, (calculateScores sampleAnsweredRoom).filter (fun e => decide (e.2.score = v)) =
      (playerEntries sampleAnsweredRoom).filter (fun e => decide (e.2.score = v))) :=
  calculateScores_sorted_stable sampleAnsweredRoom (by decide)

/-! ## The end of the quiz -/

/-- The sample room on its last question, both players still at 0 points. -/
def tiedRoom : Room := { sampleRoom with currentQuestionIndex := 1 }

def tiedScores : List (SocketId × ScoreEntry) :=
  [("ann", { displayName := "Ann", score := 0 }), ("bob", { displayName := "Bob", score := 0 })]

theorem calculateScores_tiedRoom :
    calculateScores { tiedRoom with gameEnded := true } = tiedScores := by
  rw [calculateScores_eq_arraySort _ (by decide)]
  simp [playerEntries, arraySort, sortInsert, byScoreDescending, Obj.get?, tiedRoom,
    sampleRoom, tiedScores]

/-- C8, as stated, fails: with two players tied at 0 points on the last question,
`advance-question` from the host ends the game and broadcasts final scores in which the
first score is not greater than the second. -/
theorem advanceQuestion_last_scores_not_strict :
    advanceQuestion [(1234, tiedRoom)] "host" 1234 9000 =
        .ok ([(1234, { tiedRoom with gameEnded := true })],
          [(.room 1234, .gameEnded tiedScores),
           (.socket "host", .leaderboardUpdate tiedScores 20)]) ∧
      ¬ tiedScores.Chain' (fun a b => a.2.score > b.2.score) := by
  constructor
  · have h := @advanceQuestion_host_last [(1234, tiedRoom)] "host" 1234 tiedRoom 9000 rfl rfl
      (by decide)
    rw [calculateScores_tiedRoom] at h
    rw [h]
    rfl
  · simp [tiedScores]

/-- C8, amended. When `currentQuestionIndex` is the last question index,
`advance-question` from the host sets `gameEnded`, leaves `currentQuestionIndex` as it
is, and broadcasts to the room a `game-ended` message whose `finalScores` hold one entry
per player, every score being at least every later one (equal scores are possible). -/
theorem advanceQuestion_last_ends_game (rooms : Rooms) (socketId : SocketId)
    (roomCode : RoomCode) (room : Room) (now : Int)
    (hroom : Obj.get? rooms roomCode = some room) (hhost : room.hostSocketId = socketId)
    (hlast : room.currentQuestionIndex = (room.test.questions.length : Int) - 1)
    (hkeys : (Obj.keys room.players).Nodup) :
    ∃ (rooms' : Rooms) (room' : Room) (finalScores : List (SocketId × ScoreEntry))
      (rest : List Emit),
      advanceQuestion rooms socketId roomCode now =
        .ok (rooms', (.room roomCode, .gameEnded finalScores) :: rest) ∧
      Obj.get? rooms' roomCode = some room' ∧
      room'.gameEnded = true ∧
      room'.currentQuestionIndex = room.currentQuestionIndex ∧
      finalScores.Perm (playerEntries room) ∧
      finalScores.Pairwise (fun a b => a.2.score ≥ b.2.score) := by
  have hc := calculateScores_perm_sorted { room with gameEnded := true } hkeys
  exact ⟨_, _, _, _, advanceQuestion_host_last now hroom hhost (le_of_eq hlast.symm),
    Obj.get?_set_self _ _ _, rfl, rfl, hc.1, hc.2⟩

theorem advanceQuestion_last_ends_game_witness :
    ∃ (rooms' : Rooms) (room' : Room) (finalScores : List (SocketId × ScoreEntry))
      (rest : List Emit),
      advanceQuestion [(1234, tiedRoom)] "host" 1234 9000 =
        .ok (rooms', (.room 1234, .gameEnded finalScores) :: rest) ∧
      Obj.get? rooms' 1234 = some room' ∧
      room'.gameEnded = true ∧
      room'.currentQuestionIndex = tiedRoom.currentQuestionIndex ∧
      finalScores.Perm (playerEntries tiedRoom) ∧
      finalScores.Pairwise (fun a b => a.2.score ≥ b.2.score) :=
  advanceQuestion_last_ends_game [(1234, tiedRoom)] "host" 1234 tiedRoom 9000 rfl rfl
    (by decide) (by decide)

/-! ## Departure of the host -/

theorem candidateCode_drawTaken : candidateCode drawTaken = 1234 := by
  have h : ⌊(1000 : ℚ) + 26 / 1000 * 9000⌋ = 1234 := by
    rw [Int.floor_eq_iff]
    constructor <;> norm_num
  show (⌊(1000 : ℚ) + 26 / 1000 * 9000⌋).toNat = 1234
  rw [h]
  rfl

/-- Two rooms created by the same connection, as left by two `host-room` events. -/
def twoHostedRooms : Rooms :=
  [(1234, newRoom 1234 "host" "algebra" sampleTest),
   (5500, newRoom 5500 "host" "algebra" sampleTest)]

theorem reachable_twoHostedRooms : Reachable sampleTests twoHostedRooms := by
  have h1 : handle sampleTests [] "host" (.hostRoom "algebra" [drawTaken]) =
      .ok ([(1234, newRoom 1234 "host" "algebra" sampleTest)],
        [(.socket "host", .roomCreated 1234)]) := by
    simp [handle, hostRoom, sampleTests, Obj.get?, generateRoomCode, Obj.has,
      candidateCode_drawTaken, setRoom]
  have h2 : handle sampleTests [(1234, newRoom 1234 "host" "algebra" sampleTest)] "host"
      (.hostRoom "algebra" [drawFree]) =
      .ok (twoHostedRooms, [(.socket "host", .roomCreated 5500)]) := by
    simp [handle, hostRoom, sampleTests, Obj.get?, generateRoomCode, Obj.has,
      candidateCode_drawFree, setRoom, twoHostedRooms]
  exact Reachable.step "host" _ (Reachable.step "host" _ Reachable.init h1) h2

/-- C9, at a failing input. A connection that created two rooms disconnects: the loop
of the `disconnect` handler stops after disbanding the first room, so the second room
stays in the registry with the departed connection as its host, and `get-room-role` for
its code still answers with a role rather than with "Room not found". -/
theorem disconnect_keeps_second_hosted_room :
    Reachable sampleTests twoHostedRooms ∧
    disconnect twoHostedRooms "host" =
      .ok ([(5500, newRoom 5500 "host" "algebra" sampleTest)],
        [(.room 1234, .hostDisconnected)]) ∧
    (∃ room, Obj.get? [(5500, newRoom 5500 "host" "algebra" sampleTest)] 5500 = some room ∧
      room.hostSocketId = "host") ∧
    getRoomRole [(5500, newRoom 5500 "host" "algebra" sampleTest)] "ann" 5500 =
      .ok ([(5500, newRoom 5500 "host" "algebra" sampleTest)],
        [(.socket "ann", .roomRole false false 0 false false (-1) none 0)]) := by
  refine ⟨reachable_twoHostedRooms, ?_, ⟨_, rfl, rfl⟩, ?_⟩
  · simp [disconnect, disconnectLoop, twoHostedRooms, newRoom]
  · simp [getRoomRole, Obj.get?, Obj.has, Obj.keys, newRoom]

/-! ## Display names -/

/-- The display names in use in a room, `Object.values(players).map(p => p.displayName)`. -/
def displayNames (room : Room) : List String :=
  (Obj.values room.players).map (fun p => p.displayName)

theorem Obj.mem_of_get?_eq_some {κ α : Type} [DecidableEq κ] {o : List (κ × α)} {k : κ}
    {v : α} (h : Obj.get? o k = some v) : (k, v) ∈ o := by
  induction o with
  | nil => simp [Obj.get?] at h
  | cons e rest ih =>
    obtain ⟨k', v'⟩ := e
    by_cases hk : k' = k
    · simp only [Obj.get?, hk, if_true, Option.some.injEq] at h
      simp [hk, h]
    · simp only [Obj.get?, hk, if_false] at h
      exact List.mem_cons_of_mem _ (ih h)

theorem Obj.mem_set {κ α : Type} [DecidableEq κ] {o : List (κ × α)} {k : κ} {v : α}
    {e : κ × α} (h : e ∈ Obj.set o k v) : e ∈ o ∨ e = (k, v) := by
  induction o with
  | nil => simpa [Obj.set] using h
  | cons e' rest ih =>
    obtain ⟨k', v'⟩ := e'
    by_cases hk : k' = k
    · simp only [Obj.set, hk, if_true, List.mem_cons] at h
      rcases h with h | h
      · exact Or.inr h
      · exact Or.inl (List.mem_cons_of_mem _ h)
    · simp only [Obj.set, hk, if_false, List.mem_cons] at h
      rcases h with h | h
      · exact Or.inl (h ▸ List.mem_cons_self _ _)
      · rcases ih h with h | h
        · exact Or.inl (List.mem_cons_of_mem _ h)
        · exact Or.inr h

theorem Obj.mem_of_mem_delete {κ α : Type} [DecidableEq κ] {o : List (κ × α)} {k : κ}
    {e : κ × α} (h : e ∈ Obj.delete o k) : e ∈ o :=
  (List.mem_filter.mp h).1

theorem mem_setRoom {rooms : Rooms} {code : RoomCode} {room : Room} {e : RoomCode × Room}
    (h : e ∈ setRoom rooms code room) : e ∈ rooms ∨ e = (code, room) := by
  induction rooms with
  | nil => simpa [setRoom] using h
  | cons e' rest ih =>
    obtain ⟨c, r⟩ := e'
    by_cases h1 : code < c
    · simp only [setRoom, h1, if_true, List.mem_cons] at h
      rcases h with h | h | h
      · exact Or.inr h
      · exact Or.inl (h ▸ List.mem_cons_self _ _)
      · exact Or.inl (List.mem_cons_of_mem _ h)
    · by_cases h2 : code = c
      · simp only [setRoom, h1, h2, if_true, if_false, List.mem_cons, lt_self_iff_false] at h
        rcases h with h | h
        · exact Or.inr (by rw [h2]; exact h)
        · exact Or.inl (List.mem_cons_of_mem _ h)
      · simp only [setRoom, h1, h2, if_false, List.mem_cons] at h
        rcases h with h | h
        · exact Or.inl (h ▸ List.mem_cons_self _ _)
        · rcases ih h with h | h
          · exact Or.inl (List.mem_cons_of_mem _ h)
          · exact Or.inr h

/-- Writing a player whose name is not in use keeps the names distinct, whether the key
is new or replaces an entry. -/
theorem nodup_names_set (players : List (SocketId × Player)) (socketId : SocketId)
    (player : Player)
    (hnodup : ((Obj.values players).map (fun p => p.displayName)).Nodup)
    (hnew : player.displayName ∉ (Obj.values players).map (fun p => p.displayName)) :
    ((Obj.values (Obj.set players socketId player)).map (fun p => p.displayName)).Nodup := by
  induction players with
  | nil => simp [Obj.set, Obj.values]
  | cons e rest ih =>
    obtain ⟨k, v⟩ := e
    simp only [Obj.values, List.map_cons, List.nodup_cons, List.mem_cons, not_or] at hnodup hnew
    by_cases hk : k = socketId
    · simp only [Obj.set, hk, if_true, Obj.values, List.map_cons, List.nodup_cons]
      exact ⟨hnew.2, hnodup.2⟩
    · simp only [Obj.set, hk, if_false, Obj.values, List.map_cons, List.nodup_cons]
      refine ⟨?_, ih hnodup.2 hnew.2⟩
      intro hmem
      obtain ⟨p, hp, hname⟩ := List.mem_map.mp hmem
      obtain ⟨e, he, hpe⟩ := List.mem_map.mp hp
      rcases Obj.mem_set he with he | he
      · exact hnodup.1 (List.mem_map.mpr ⟨p, List.mem_map.mpr ⟨e, he, hpe⟩, hname⟩)
      · rw [he] at hpe
        rw [← hpe] at hname
        exact hnew.1 hname

theorem nodup_names_delete (players : List (SocketId × Player)) (socketId : SocketId)
    (hnodup : ((Obj.values players).map (fun p => p.displayName)).Nodup) :
    ((Obj.values (Obj.delete players socketId)).map (fun p => p.displayName)).Nodup := by
  have hsub : List.Sublist (Obj.delete players socketId) players := List.filter_sublist _
  exact ((hsub.map _).map _).nodup hnodup

/-- Every room of the registry has pairwise distinct display names. -/
def NamesDistinct (rooms : Rooms) : Prop :=
  ∀ e ∈ rooms, (displayNames e.2).Nodup

theorem NamesDistinct.set {rooms : Rooms} (h : NamesDistinct rooms) (code : RoomCode)
    (room : Room) (hroom : (displayNames room).Nodup) :
    NamesDistinct (Obj.set rooms code room) := by
  intro e he
  rcases Obj.mem_set he with he | he
  · exact h e he
  · rw [he]; exact hroom

theorem NamesDistinct.get {rooms : Rooms} (h : NamesDistinct rooms) {code : RoomCode}
    {room : Room} (hroom : Obj.get? rooms code = some room) : (displayNames room).Nodup :=
  h _ (Obj.mem_of_get?_eq_some hroom)

theorem NamesDistinct.disconnectLoop (socketId : SocketId) (rooms : Rooms)
    (h : NamesDistinct rooms) : NamesDistinct (disconnectLoop socketId rooms).1 := by
  induction rooms with
  | nil => simpa [Dxdy.disconnectLoop] using h
  | cons e rest ih =>
    obtain ⟨code, room⟩ := e
    have hrest : NamesDistinct rest := fun e he => h e (List.mem_cons_of_mem _ he)
    have hroom : (displayNames room).Nodup := h (code, room) (List.mem_cons_self _ _)
    by_cases hhost : room.hostSocketId = socketId
    · simpa [Dxdy.disconnectLoop, hhost] using hrest
    · by_cases hplayer : Obj.has room.players socketId = true
      · simp only [Dxdy.disconnectLoop, hhost, hplayer, if_true, if_false]
        intro e he
        rcases List.mem_cons.mp he with he | he
        · rw [he]
          exact nodup_names_delete room.players socketId hroom
        · exact ih hrest e he
      · simp only [Dxdy.disconnectLoop, hhost, hplayer, if_false]
        intro e he
        rcases List.mem_cons.mp he with he | he
        · rw [he]; exact hroom
        · exact ih hrest e he

/-- The registry changed at most by replacing one room by a room with the same players. -/
def PlayersKept (rooms rooms' : Rooms) : Prop :=
  rooms' = rooms ∨
    ∃ code room room', Obj.get? rooms code = some room ∧ room'.players = room.players ∧
      rooms' = Obj.set rooms code room'

theorem NamesDistinct.of_playersKept {rooms rooms' : Rooms} (h : NamesDistinct rooms)
    (hkept : PlayersKept rooms rooms') : NamesDistinct rooms' := by
  rcases hkept with hsame | ⟨code, room, room', hroom, hplayers, hset⟩
  · rw [hsame]; exact h
  · rw [hset]
    refine h.set code room' ?_
    have := h.get hroom
    simpa [displayNames, hplayers] using this

theorem startGame_playersKept {rooms rooms' : Rooms} {socketId : SocketId}
    {roomCode : RoomCode} {now : Int} {out : List Emit}
    (h : startGame rooms socketId roomCode now = .ok (rooms', out)) :
    PlayersKept rooms rooms' := by
  cases hroom : Obj.get? rooms roomCode with
  | none =>
    simp [startGame, hroom] at h
    exact Or.inl h.1.symm
  | some room =>
    by_cases hhost : room.hostSocketId = socketId
    · rw [startGame_host now hroom hhost] at h
      simp only [Except.ok.injEq, Prod.mk.injEq] at h
      exact Or.inr ⟨roomCode, room, startedRoom room now, hroom, rfl, h.1.symm⟩
    · simp [startGame, hroom, hhost] at h
      exact Or.inl h.1.symm

theorem advanceQuestion_playersKept {rooms rooms' : Rooms} {socketId : SocketId}
    {roomCode : RoomCode} {now : Int} {out : List Emit}
    (h : advanceQuestion rooms socketId roomCode now = .ok (rooms', out)) :
    PlayersKept rooms rooms' := by
  cases hroom : Obj.get? rooms roomCode with
  | none =>
    simp [advanceQuestion, hroom] at h
    exact Or.inl h.1.symm
  | some room =>
    by_cases hhost : room.hostSocketId = socketId
    · by_cases hlast : room.currentQuestionIndex ≥ (room.test.questions.length : Int) - 1
      · rw [advanceQuestion_host_last now hroom hhost hlast] at h
        simp only [Except.ok.injEq, Prod.mk.injEq] at h
        exact Or.inr ⟨roomCode, room, { room with gameEnded := true }, hroom, rfl, h.1.symm⟩
      · rw [advanceQuestion_host_next now hroom hhost hlast] at h
        simp only [Except.ok.injEq, Prod.mk.injEq] at h
        exact Or.inr ⟨roomCode, room, advancedRoom room now, hroom, rfl, h.1.symm⟩
    · simp [advanceQuestion, hroom, hhost] at h
      exact Or.inl h.1.symm

theorem endGame_playersKept {rooms rooms' : Rooms} {socketId : SocketId}
    {roomCode : RoomCode} {out : List Emit}
    (h : endGame rooms socketId roomCode = .ok (rooms', out)) :
    PlayersKept rooms rooms' := by
  cases hroom : Obj.get? rooms roomCode with
  | none =>
    simp [endGame, hroom] at h
    exact Or.inl h.1.symm
  | some room =>
    by_cases hhost : room.hostSocketId = socketId
    · rw [endGame_host hroom hhost] at h
      simp only [Except.ok.injEq, Prod.mk.injEq] at h
      exact Or.inr ⟨roomCode, room, { room with gameEnded := true }, hroom, rfl, h.1.symm⟩
    · simp [endGame, hroom, hhost] at h
      exact Or.inl h.1.symm

theorem submitAnswer_playersKept {rooms rooms' : Rooms} {socketId : SocketId}
    {roomCode : RoomCode} {answer : String} {now : Int} {out : List Emit}
    (h : submitAnswer rooms socketId roomCode answer now = .ok (rooms', out)) :
    PlayersKept rooms rooms' := by
  cases hroom : Obj.get? rooms roomCode with
  | none =>
    simp [submitAnswer, hroom] at h
    exact Or.inl h.1.symm
  | some room =>
    cases hplayer : Obj.get? room.players socketId with
    | none =>
      simp [submitAnswer, hroom, hplayer] at h
      exact Or.inl h.1.symm
    | some player =>
      by_cases hidx : room.currentQuestionIndex < 0
      · simp [submitAnswer, hroom, hplayer, hidx] at h
        exact Or.inl h.1.symm
      · cases hstarted : room.gameStarted with
        | false =>
          simp [submitAnswer, hroom, hplayer, hstarted] at h
          exact Or.inl h.1.symm
        | true =>
          cases hended : room.gameEnded with
          | true =>
            simp [submitAnswer, hroom, hplayer, hended] at h
            exact Or.inl h.1.symm
          | false =>
            have hidx' : 0 ≤ room.currentQuestionIndex := not_lt.mp hidx
            cases hprev : Obj.get? room.playerAnswers socketId with
            | some previous =>
              rw [submitAnswer_repeat_ignored_run hroom hplayer hidx' hstarted hended hprev] at h
              simp only [Except.ok.injEq, Prod.mk.injEq] at h
              exact Or.inl h.1.symm
            | none =>
              cases hq : questionAt room.test.questions room.currentQuestionIndex with
              | none =>
                simp [submitAnswer, hroom, hplayer, hidx, hstarted, hended, Obj.has, hprev,
                  hq] at h
              | some q =>
                rw [submitAnswer_accepted answer now hroom hplayer hidx' hstarted hended hprev
                  hq] at h
                simp only [Except.ok.injEq, Prod.mk.injEq] at h
                refine Or.inr ⟨roomCode, room, _, hroom, ?_, h.1.symm⟩
                rfl

theorem joinRoom_namesDistinct {rooms rooms' : Rooms} {socketId : SocketId}
    {roomCode : RoomCode} {displayName : String} {out : List Emit}
    (hinv : NamesDistinct rooms)
    (h : joinRoom rooms socketId roomCode displayName = .ok (rooms', out)) :
    NamesDistinct rooms' := by
  cases hroom : Obj.get? rooms roomCode with
  | none =>
    simp [joinRoom, hroom] at h
    rw [← h.1]; exact hinv
  | some room =>
    cases hended : room.gameEnded with
    | true =>
      simp [joinRoom, hroom, hended] at h
      rw [← h.1]; exact hinv
    | false =>
      by_cases hname : displayName ∈ (Obj.values room.players).map (fun p => p.displayName)
      · simp only [joinRoom, hroom, hended, hname, if_true] at h
        simp at h
        rw [← h.1]; exact hinv
      · simp only [joinRoom, hroom, hended, hname, if_false] at h
        simp only [Bool.false_eq_true, if_false, Except.ok.injEq, Prod.mk.injEq] at h
        rw [← h.1]
        refine hinv.set roomCode _ ?_
        exact nodup_names_set room.players socketId
          { socketId := socketId, displayName := displayName } (hinv.get hroom) hname

theorem leaveRoom_namesDistinct {rooms rooms' : Rooms} {socketId : SocketId}
    {roomCode : RoomCode} {out : List Emit}
    (hinv : NamesDistinct rooms)
    (h : leaveRoom rooms socketId roomCode = .ok (rooms', out)) :
    NamesDistinct rooms' := by
  cases hroom : Obj.get? rooms roomCode with
  | none =>
    simp [leaveRoom, hroom] at h
    rw [← h.1]; exact hinv
  | some room =>
    by_cases hhost : room.hostSocketId = socketId
    · simp [leaveRoom, hroom, hhost] at h
      rw [← h.1]
      exact fun e he => hinv e (Obj.mem_of_mem_delete he)
    · by_cases hplayer : Obj.has room.players socketId = true
      · simp only [leaveRoom, hroom, hhost, hplayer, if_true, if_false, Except.ok.injEq,
          Prod.mk.injEq] at h
        rw [← h.1]
        refine hinv.set roomCode _ ?_
        exact nodup_names_delete room.players socketId (hinv.get hroom)
      · simp [leaveRoom, hroom, hhost, hplayer] at h
        rw [← h.1]; exact hinv

theorem hostRoom_namesDistinct {tests : Tests} {rooms rooms' : Rooms} {socketId : SocketId}
    {testId : String} {draws : List Draw} {out : List Emit}
    (hinv : NamesDistinct rooms)
    (h : hostRoom tests rooms socketId testId draws = .ok (rooms', out)) :
    NamesDistinct rooms' := by
  cases htest : Obj.get? tests testId with
  | none =>
    simp [hostRoom, htest] at h
    rw [← h.1]; exact hinv
  | some test =>
    cases hcode : generateRoomCode rooms draws with
    | none => simp [hostRoom, htest, hcode] at h
    | some code =>
      simp only [hostRoom, htest, hcode, Except.ok.injEq, Prod.mk.injEq] at h
      rw [← h.1]
      intro e he
      rcases mem_setRoom he with he | he
      · exact hinv e he
      · rw [he]
        simp [displayNames, newRoom, Obj.values]

theorem getRoomRole_rooms {rooms rooms' : Rooms} {socketId : SocketId}
    {roomCode : RoomCode} {out : List Emit}
    (h : getRoomRole rooms socketId roomCode = .ok (rooms', out)) : rooms = rooms' := by
  cases hroom : Obj.get? rooms roomCode <;> simp [getRoomRole, hroom] at h <;> exact h.1

/-- Distinct display names are an invariant of the server. -/
theorem reachable_namesDistinct {tests : Tests} {rooms : Rooms}
    (h : Reachable tests rooms) : NamesDistinct rooms := by
  induction h with
  | init => intro e he; simp at he
  | step socketId event _ hstep ih =>
    cases event with
    | hostRoom testId draws => exact hostRoom_namesDistinct ih hstep
    | joinRoom roomCode displayName => exact joinRoom_namesDistinct ih hstep
    | leaveRoom roomCode => exact leaveRoom_namesDistinct ih hstep
    | startGame roomCode now => exact ih.of_playersKept (startGame_playersKept hstep)
    | advanceQuestion roomCode now =>
      exact ih.of_playersKept (advanceQuestion_playersKept hstep)
    | submitAnswer roomCode answer now =>
      exact ih.of_playersKept (submitAnswer_playersKept hstep)
    | endGame roomCode => exact ih.of_playersKept (endGame_playersKept hstep)
    | getRoomRole roomCode =>
      rw [← getRoomRole_rooms hstep]; exact ih
    | revealAnswer roomCode =>
      simp [handle] at hstep
      rw [← hstep.1]; exact ih
    | disconnect =>
      simp only [handle, disconnect, Except.ok.injEq] at hstep
      have := ih.disconnectLoop socketId
      rw [hstep] at this
      exact this

/-- C10. `join-room` with a display name that equals, character for character, the name
of a player of the addressed room is answered with one error message to the requester
("Display name already taken", or "Game has ended" when the room has ended, which is
checked first) and returns the registry, hence the room's players, unchanged.
Consequently, in every registry the server can reach, the display names of the players
of each room are pairwise distinct. -/
theorem joinRoom_names_unique (tests : Tests) :
    (∀ (rooms : Rooms) (socketId : SocketId) (roomCode : RoomCode) (displayName : String)
        (room : Room),
      Obj.get? rooms roomCode = some room →
      displayName ∈ displayNames room →
      ∃ message, joinRoom rooms socketId roomCode displayName =
          .ok (rooms, [(.socket socketId, .error message)]) ∧
        (room.gameEnded = false → message = "Display name already taken")) ∧
    (∀ rooms : Rooms, Reachable tests rooms →
      ∀ (roomCode : RoomCode) (room : Room), (roomCode, room) ∈ rooms →
        (displayNames room).Nodup) := by
  constructor
  · intro rooms socketId roomCode displayName room hroom hname
    cases hended : room.gameEnded with
    | true => exact ⟨"Game has ended", by simp [joinRoom, hroom, hended], by simp⟩
    | false =>
      have hname' : displayName ∈ (Obj.values room.players).map (fun p => p.displayName) :=
        hname
      exact ⟨"Display name already taken", by simp [joinRoom, hroom, hended, hname'],
        fun _ => rfl⟩
  · intro rooms hreach roomCode room hmem
    exact reachable_namesDistinct hreach (roomCode, room) hmem

theorem joinRoom_names_unique_witness :
    ∃ message, joinRoom sampleRooms "carl" 1234 "Ann" =
        .ok (sampleRooms, [(.socket "carl", .error message)]) ∧
      (sampleRoom.gameEnded = false → message = "Display name already taken") :=
  (joinRoom_names_unique sampleTests).1 sampleRooms "carl" 1234 "Ann" sampleRoom rfl
    (by decide)

/-! ## The branches of the handlers -/

/-- The room after the mutation of the `join-room` handler. -/
def joinedRoom (room : Room) (socketId : SocketId) (displayName : String) : Room :=
  { room with
    players :=
      Obj.set room.players socketId { socketId := socketId, displayName := displayName } }

/-- The room after the mutations of the player branch of `leave-room` and `disconnect`. -/
def departedRoom (room : Room) (socketId : SocketId) : Room :=
  { room with
    players := Obj.delete room.players socketId
    playerAnswers := Obj.delete room.playerAnswers socketId }

/-- The room after the mutations of an accepted `submit-answer`. -/
def answeredRoom (room : Room) (socketId : SocketId) (answer : String) (now : Int)
    (q : Question) : Room :=
  { room with
    playerScores :=
      accumulate room.playerScores socketId
        (awardedPoints (((now - room.questionStartTime.getD 0 : Int) : ℚ) / 1000)
          (decide (answer = q.answer)))
    playerAnswers :=
      Obj.set room.playerAnswers socketId
        { answer := answer
          time := ((now - room.questionStartTime.getD 0 : Int) : ℚ) / 1000
          correct := decide (answer = q.answer)
          points :=
            awardedPoints (((now - room.questionStartTime.getD 0 : Int) : ℚ) / 1000)
              (decide (answer = q.answer)) } }

/-- No message of the list is an `error` message. -/
def NoError (out : List Emit) : Prop := ∀ e ∈ out, ∀ message, e.2 ≠ .error message

/-- The branches through which a handler can run to completion: for each, the condition
under which it is taken, the registry it leaves, and either the single error message it
emits or the fact that it emits none. -/
inductive Step (tests : Tests) (rooms : Rooms) (socketId : SocketId) :
    Event → Rooms → List Emit → Prop where
  | hostUnknownTest (testId : String) (draws : List Draw) :
      Obj.get? tests testId = none →
      Step tests rooms socketId (.hostRoom testId draws) rooms
        [(.socket socketId, .error "Invalid test selected")]
  | hostCreated (testId : String) (draws : List Draw) (test : Test) (code : RoomCode)
      (out : List Emit) :
      Obj.get? tests testId = some test → generateRoomCode rooms draws = some code →
      NoError out →
      Step tests rooms socketId (.hostRoom testId draws)
        (setRoom rooms code (newRoom code socketId testId test)) out
  | joinUnknownRoom (roomCode : RoomCode) (displayName : String) :
      Obj.get? rooms roomCode = none →
      Step tests rooms socketId (.joinRoom roomCode displayName) rooms
        [(.socket socketId, .error "Room not found")]
  | joinEnded (roomCode : RoomCode) (displayName : String) (room : Room) :
      Obj.get? rooms roomCode = some room → room.gameEnded = true →
      Step tests rooms socketId (.joinRoom roomCode displayName) rooms
        [(.socket socketId, .error "Game has ended")]
  | joinNameTaken (roomCode : RoomCode) (displayName : String) (room : Room) :
      Obj.get? rooms roomCode = some room → room.gameEnded = false →
      displayName ∈ displayNames room →
      Step tests rooms socketId (.joinRoom roomCode displayName) rooms
        [(.socket socketId, .error "Display name already taken")]
  | joined (roomCode : RoomCode) (displayName : String) (room : Room) (out : List Emit) :
      Obj.get? rooms roomCode = some room → room.gameEnded = false →
      displayName ∉ displayNames room → NoError out →
      Step tests rooms socketId (.joinRoom roomCode displayName)
        (Obj.set rooms roomCode (joinedRoom room socketId displayName)) out
  | leaveNothing (roomCode : RoomCode) :
      (Obj.get? rooms roomCode = none ∨
        ∃ room, Obj.get? rooms roomCode = some room ∧ room.hostSocketId ≠ socketId ∧
          Obj.has room.players socketId = false) →
      Step tests rooms socketId (.leaveRoom roomCode) rooms []
  | leaveHost (roomCode : RoomCode) (room : Room) (out : List Emit) :
      Obj.get? rooms roomCode = some room → room.hostSocketId = socketId → NoError out →
      Step tests rooms socketId (.leaveRoom roomCode) (Obj.delete rooms roomCode) out
  | leavePlayer (roomCode : RoomCode) (room : Room) (out : List Emit) :
      Obj.get? rooms roomCode = some room → room.hostSocketId ≠ socketId →
      Obj.has room.players socketId = true → NoError out →
      Step tests rooms socketId (.leaveRoom roomCode)
        (Obj.set rooms roomCode (departedRoom room socketId)) out
  | startUnauthorized (roomCode : RoomCode) (now : Int) :
      (Obj.get? rooms roomCode = none ∨
        ∃ room, Obj.get? rooms roomCode = some room ∧ room.hostSocketId ≠ socketId) →
      Step tests rooms socketId (.startGame roomCode now) rooms
        [(.socket socketId, .error "Unauthorized")]
  | started (roomCode : RoomCode) (now : Int) (room : Room) (out : List Emit) :
      Obj.get? rooms roomCode = some room → room.hostSocketId = socketId → NoError out →
      Step tests rooms socketId (.startGame roomCode now)
        (Obj.set rooms roomCode (startedRoom room now)) out
  | advanceUnauthorized (roomCode : RoomCode) (now : Int) :
      (Obj.get? rooms roomCode = none ∨
        ∃ room, Obj.get? rooms roomCode = some room ∧ room.hostSocketId ≠ socketId) →
      Step tests rooms socketId (.advanceQuestion roomCode now) rooms
        [(.socket socketId, .error "Unauthorized")]
  | advancedLast (roomCode : RoomCode) (now : Int) (room : Room) (out : List Emit) :
      Obj.get? rooms roomCode = some room → room.hostSocketId = socketId →
      room.currentQuestionIndex ≥ (room.test.questions.length : Int) - 1 → NoError out →
      Step tests rooms socketId (.advanceQuestion roomCode now)
        (Obj.set rooms roomCode { room with gameEnded := true }) out
  | advancedNext (roomCode : RoomCode) (now : Int) (room : Room) (out : List Emit) :
      Obj.get? rooms roomCode = some room → room.hostSocketId = socketId →
      room.currentQuestionIndex < (room.test.questions.length : Int) - 1 → NoError out →
      Step tests rooms socketId (.advanceQuestion roomCode now)
        (Obj.set rooms roomCode (advancedRoom room now)) out
  | submitUnauthorized (roomCode : RoomCode) (answer : String) (now : Int) :
      (Obj.get? rooms roomCode = none ∨
        ∃ room, Obj.get? rooms roomCode = some room ∧
          Obj.get? room.players socketId = none) →
      Step tests rooms socketId (.submitAnswer roomCode answer now) rooms
        [(.socket socketId, .error "Unauthorized")]
  | submitNotInProgress (roomCode : RoomCode) (answer : String) (now : Int) (room : Room)
      (player : Player) :
      Obj.get? rooms roomCode = some room → Obj.get? room.players socketId = some player →
      (room.currentQuestionIndex < 0 ∨ room.gameStarted = false ∨ room.gameEnded = true) →
      Step tests rooms socketId (.submitAnswer roomCode answer now) rooms
        [(.socket socketId, .error "Game not in progress")]
  | submitRepeated (roomCode : RoomCode) (answer : String) (now : Int) (room : Room)
      (player : Player) (previous : Answer) :
      Obj.get? rooms roomCode = some room → Obj.get? room.players socketId = some player →
      0 ≤ room.currentQuestionIndex → room.gameStarted = true → room.gameEnded = false →
      Obj.get? room.playerAnswers socketId = some previous →
      Step tests rooms socketId (.submitAnswer roomCode answer now) rooms []
  | submitAccepted (roomCode : RoomCode) (answer : String) (now : Int) (room : Room)
      (player : Player) (q : Question) (out : List Emit) :
      Obj.get? rooms roomCode = some room → Obj.get? room.players socketId = some player →
      0 ≤ room.currentQuestionIndex → room.gameStarted = true → room.gameEnded = false →
      Obj.get? room.playerAnswers socketId = none →
      questionAt room.test.questions room.currentQuestionIndex = some q → NoError out →
      Step tests rooms socketId (.submitAnswer roomCode answer now)
        (Obj.set rooms roomCode (answeredRoom room socketId answer now q)) out
  | endUnauthorized (roomCode : RoomCode) :
      (Obj.get? rooms roomCode = none ∨
        ∃ room, Obj.get? rooms roomCode = some room ∧ room.hostSocketId ≠ socketId) →
      Step tests rooms socketId (.endGame roomCode) rooms
        [(.socket socketId, .error "Unauthorized")]
  | ended (roomCode : RoomCode) (room : Room) (out : List Emit) :
      Obj.get? rooms roomCode = some room → room.hostSocketId = socketId → NoError out →
      Step tests rooms socketId (.endGame roomCode)
        (Obj.set rooms roomCode { room with gameEnded := true }) out
  | roleUnknownRoom (roomCode : RoomCode) :
      Obj.get? rooms roomCode = none →
      Step tests rooms socketId (.getRoomRole roomCode) rooms
        [(.socket socketId, .error "Room not found")]
  | role (roomCode : RoomCode) (room : Room) (out : List Emit) :
      Obj.get? rooms roomCode = some room → NoError out →
      Step tests rooms socketId (.getRoomRole roomCode) rooms out
  | revealDropped (roomCode : RoomCode) :
      Step tests rooms socketId (.revealAnswer roomCode) rooms []
  | disconnected (out : List Emit) :
      NoError out →
      Step tests rooms socketId .disconnect (disconnectLoop socketId rooms).1 out

theorem noError_disconnectLoop (socketId : SocketId) (rooms : Rooms) :
    NoError (disconnectLoop socketId rooms).2 := by
  induction rooms with
  | nil => simp [NoError, disconnectLoop]
  | cons e rest ih =>
    obtain ⟨code, room⟩ := e
    by_cases hhost : room.hostSocketId = socketId
    · simp [NoError, disconnectLoop, hhost]
    · by_cases hplayer : Obj.has room.players socketId = true
      · simp only [disconnectLoop, hhost, hplayer, if_true, if_false]
        intro e he message
        rcases List.mem_cons.mp he with he | he
        · rw [he]; simp
        · exact ih e he message
      · simpa [disconnectLoop, hhost, hplayer] using ih

theorem step_of_hostRoom {tests : Tests} {rooms rooms' : Rooms} {socketId : SocketId}
    {testId : String} {draws : List Draw} {out : List Emit}
    (h : hostRoom tests rooms socketId testId draws = .ok (rooms', out)) :
    Step tests rooms socketId (.hostRoom testId draws) rooms' out := by
  cases htest : Obj.get? tests testId with
  | none =>
    simp only [hostRoom, htest, Except.ok.injEq, Prod.mk.injEq] at h
    rw [← h.1, ← h.2]
    exact .hostUnknownTest testId draws htest
  | some test =>
    cases hcode : generateRoomCode rooms draws with
    | none => simp [hostRoom, htest, hcode] at h
    | some code =>
      simp only [hostRoom, htest, hcode, Except.ok.injEq, Prod.mk.injEq] at h
      obtain ⟨h1, h2⟩ := h
      subst h1 h2
      refine .hostCreated testId draws test code _ htest hcode ?_
      simp [NoError]

theorem joinRoom_joined {rooms : Rooms} {socketId : SocketId} {roomCode : RoomCode}
    {displayName : String} {room : Room} (hroom : Obj.get? rooms roomCode = some room)
    (hended : room.gameEnded = false) (hname : displayName ∉ displayNames room) :
    joinRoom rooms socketId roomCode displayName =
      .ok (Obj.set rooms roomCode (joinedRoom room socketId displayName),
        [(.socket socketId, .roomJoined roomCode),
         (.room roomCode,
           .playerJoined socketId displayName
             (Obj.keys (joinedRoom room socketId displayName).players).length)]) := by
  have hname' : displayName ∉ (Obj.values room.players).map (fun p => p.displayName) := hname
  simp [joinRoom, joinedRoom, hroom, hended, hname']

theorem leaveRoom_player {rooms : Rooms} {socketId : SocketId} {roomCode : RoomCode}
    {room : Room} (hroom : Obj.get? rooms roomCode = some room)
    (hhost : room.hostSocketId ≠ socketId) (hplayer : Obj.has room.players socketId = true) :
    leaveRoom rooms socketId roomCode =
      .ok (Obj.set rooms roomCode (departedRoom room socketId),
        [(.room roomCode,
           .playerLeft socketId (Obj.keys (departedRoom room socketId).players).length)]) := by
  simp [leaveRoom, departedRoom, hroom, hhost, hplayer]

theorem step_of_joinRoom {tests : Tests} {rooms rooms' : Rooms} {socketId : SocketId}
    {roomCode : RoomCode} {displayName : String} {out : List Emit}
    (h : joinRoom rooms socketId roomCode displayName = .ok (rooms', out)) :
    Step tests rooms socketId (.joinRoom roomCode displayName) rooms' out := by
  cases hroom : Obj.get? rooms roomCode with
  | none =>
    simp only [joinRoom, hroom, Except.ok.injEq, Prod.mk.injEq] at h
    rw [← h.1, ← h.2]
    exact .joinUnknownRoom roomCode displayName hroom
  | some room =>
    cases hended : room.gameEnded with
    | true =>
      simp only [joinRoom, hroom, hended, if_true, Except.ok.injEq, Prod.mk.injEq] at h
      rw [← h.1, ← h.2]
      exact .joinEnded roomCode displayName room hroom hended
    | false =>
      by_cases hname : displayName ∈ (Obj.values room.players).map (fun p => p.displayName)
      · simp only [joinRoom, hroom, hended, hname, if_true, Bool.false_eq_true, if_false,
          Except.ok.injEq, Prod.mk.injEq] at h
        rw [← h.1, ← h.2]
        exact .joinNameTaken roomCode displayName room hroom hended hname
      · rw [joinRoom_joined hroom hended hname] at h
        simp only [Except.ok.injEq, Prod.mk.injEq] at h
        obtain ⟨h1, h2⟩ := h
        subst h1 h2
        refine .joined roomCode displayName room _ hroom hended hname ?_
        simp [NoError]

theorem step_of_leaveRoom {tests : Tests} {rooms rooms' : Rooms} {socketId : SocketId}
    {roomCode : RoomCode} {out : List Emit}
    (h : leaveRoom rooms socketId roomCode = .ok (rooms', out)) :
    Step tests rooms socketId (.leaveRoom roomCode) rooms' out := by
  cases hroom : Obj.get? rooms roomCode with
  | none =>
    simp only [leaveRoom, hroom, Except.ok.injEq, Prod.mk.injEq] at h
    rw [← h.1, ← h.2]
    exact .leaveNothing roomCode (Or.inl hroom)
  | some room =>
    by_cases hhost : room.hostSocketId = socketId
    · simp only [leaveRoom, hroom, hhost, if_true, Except.ok.injEq, Prod.mk.injEq] at h
      obtain ⟨h1, h2⟩ := h
      subst h1 h2
      refine .leaveHost roomCode room _ hroom hhost ?_
      simp [NoError]
    · by_cases hplayer : Obj.has room.players socketId = true
      · rw [leaveRoom_player hroom hhost hplayer] at h
        simp only [Except.ok.injEq, Prod.mk.injEq] at h
        obtain ⟨h1, h2⟩ := h
        subst h1 h2
        refine .leavePlayer roomCode room _ hroom hhost hplayer ?_
        simp [NoError]
      · have hp : Obj.has room.players socketId = false := by simpa using hplayer
        simp only [leaveRoom, hroom, hhost, hp, Bool.false_eq_true, if_false, Except.ok.injEq,
          Prod.mk.injEq] at h
        rw [← h.1, ← h.2]
        exact .leaveNothing roomCode (Or.inr ⟨room, hroom, hhost, hp⟩)

theorem step_of_startGame {tests : Tests} {rooms rooms' : Rooms} {socketId : SocketId}
    {roomCode : RoomCode} {now : Int} {out : List Emit}
    (h : startGame rooms socketId roomCode now = .ok (rooms', out)) :
    Step tests rooms socketId (.startGame roomCode now) rooms' out := by
  cases hroom : Obj.get? rooms roomCode with
  | none =>
    simp only [startGame, hroom, Except.ok.injEq, Prod.mk.injEq] at h
    rw [← h.1, ← h.2]
    exact .startUnauthorized roomCode now (Or.inl hroom)
  | some room =>
    by_cases hhost : room.hostSocketId = socketId
    · rw [startGame_host now hroom hhost] at h
      simp only [Except.ok.injEq, Prod.mk.injEq] at h
      obtain ⟨h1, h2⟩ := h
      subst h1 h2
      refine .started roomCode now room _ hroom hhost ?_
      simp [NoError]
    · simp only [startGame, hroom, ne_eq, hhost, not_false_eq_true, if_true, Except.ok.injEq,
        Prod.mk.injEq] at h
      rw [← h.1, ← h.2]
      exact .startUnauthorized roomCode now (Or.inr ⟨room, hroom, hhost⟩)

theorem step_of_advanceQuestion {tests : Tests} {rooms rooms' : Rooms} {socketId : SocketId}
    {roomCode : RoomCode} {now : Int} {out : List Emit}
    (h : advanceQuestion rooms socketId roomCode now = .ok (rooms', out)) :
    Step tests rooms socketId (.advanceQuestion roomCode now) rooms' out := by
  cases hroom : Obj.get? rooms roomCode with
  | none =>
    simp only [advanceQuestion, hroom, Except.ok.injEq, Prod.mk.injEq] at h
    rw [← h.1, ← h.2]
    exact .advanceUnauthorized roomCode now (Or.inl hroom)
  | some room =>
    by_cases hhost : room.hostSocketId = socketId
    · by_cases hlast : room.currentQuestionIndex ≥ (room.test.questions.length : Int) - 1
      · rw [advanceQuestion_host_last now hroom hhost hlast] at h
        simp only [Except.ok.injEq, Prod.mk.injEq] at h
        obtain ⟨h1, h2⟩ := h
        subst h1 h2
        refine .advancedLast roomCode now room _ hroom hhost hlast ?_
        simp [NoError]
      · rw [advanceQuestion_host_next now hroom hhost hlast] at h
        simp only [Except.ok.injEq, Prod.mk.injEq] at h
        obtain ⟨h1, h2⟩ := h
        subst h1 h2
        refine .advancedNext roomCode now room _ hroom hhost (not_le.mp hlast) ?_
        simp [NoError]
    · simp only [advanceQuestion, hroom, ne_eq, hhost, not_false_eq_true, if_true,
        Except.ok.injEq, Prod.mk.injEq] at h
      rw [← h.1, ← h.2]
      exact .advanceUnauthorized roomCode now (Or.inr ⟨room, hroom, hhost⟩)

theorem step_of_endGame {tests : Tests} {rooms rooms' : Rooms} {socketId : SocketId}
    {roomCode : RoomCode} {out : List Emit}
    (h : endGame rooms socketId roomCode = .ok (rooms', out)) :
    Step tests rooms socketId (.endGame roomCode) rooms' out := by
  cases hroom : Obj.get? rooms roomCode with
  | none =>
    simp only [endGame, hroom, Except.ok.injEq, Prod.mk.injEq] at h
    rw [← h.1, ← h.2]
    exact .endUnauthorized roomCode (Or.inl hroom)
  | some room =>
    by_cases hhost : room.hostSocketId = socketId
    · rw [endGame_host hroom hhost] at h
      simp only [Except.ok.injEq, Prod.mk.injEq] at h
      obtain ⟨h1, h2⟩ := h
      subst h1 h2
      refine .ended roomCode room _ hroom hhost ?_
      simp [NoError]
    · simp only [endGame, hroom, ne_eq, hhost, not_false_eq_true, if_true, Except.ok.injEq,
        Prod.mk.injEq] at h
      rw [← h.1, ← h.2]
      exact .endUnauthorized roomCode (Or.inr ⟨room, hroom, hhost⟩)

theorem step_of_submitAnswer {tests : Tests} {rooms rooms' : Rooms} {socketId : SocketId}
    {roomCode : RoomCode} {answer : String} {now : Int} {out : List Emit}
    (h : submitAnswer rooms socketId roomCode answer now = .ok (rooms', out)) :
    Step tests rooms socketId (.submitAnswer roomCode answer now) rooms' out := by
  cases hroom : Obj.get? rooms roomCode with
  | none =>
    simp only [submitAnswer, hroom, Except.ok.injEq, Prod.mk.injEq] at h
    rw [← h.1, ← h.2]
    exact .submitUnauthorized roomCode answer now (Or.inl hroom)
  | some room =>
    cases hplayer : Obj.get? room.players socketId with
    | none =>
      simp only [submitAnswer, hroom, hplayer, Except.ok.injEq, Prod.mk.injEq] at h
      rw [← h.1, ← h.2]
      exact .submitUnauthorized roomCode answer now (Or.inr ⟨room, hroom, hplayer⟩)
    | some player =>
      by_cases hidx : room.currentQuestionIndex < 0
      · simp [submitAnswer, hroom, hplayer, hidx] at h
        rw [← h.1, ← h.2]
        exact .submitNotInProgress roomCode answer now room player hroom hplayer (Or.inl hidx)
      · cases hstarted : room.gameStarted with
        | false =>
          simp [submitAnswer, hroom, hplayer, hstarted] at h
          rw [← h.1, ← h.2]
          exact .submitNotInProgress roomCode answer now room player hroom hplayer
            (Or.inr (Or.inl hstarted))
        | true =>
          cases hended : room.gameEnded with
          | true =>
            simp [submitAnswer, hroom, hplayer, hended] at h
            rw [← h.1, ← h.2]
            exact .submitNotInProgress roomCode answer now room player hroom hplayer
              (Or.inr (Or.inr hended))
          | false =>
            have hidx' : 0 ≤ room.currentQuestionIndex := not_lt.mp hidx
            cases hprev : Obj.get? room.playerAnswers socketId with
            | some previous =>
              rw [submitAnswer_repeat_ignored_run hroom hplayer hidx' hstarted hended hprev] at h
              simp only [Except.ok.injEq, Prod.mk.injEq] at h
              rw [← h.1, ← h.2]
              exact .submitRepeated roomCode answer now room player previous hroom hplayer
                hidx' hstarted hended hprev
            | none =>
              cases hq : questionAt room.test.questions room.currentQuestionIndex with
              | none =>
                simp [submitAnswer, hroom, hplayer, hidx, hstarted, hended, Obj.has, hprev,
                  hq] at h
              | some q =>
                rw [submitAnswer_accepted answer now hroom hplayer hidx' hstarted hended hprev
                  hq] at h
                simp only [Except.ok.injEq, Prod.mk.injEq] at h
                obtain ⟨h1, h2⟩ := h
                subst h1 h2
                refine .submitAccepted roomCode answer now room player q _ hroom hplayer
                  hidx' hstarted hended hprev hq ?_
                simp [NoError]

theorem step_of_getRoomRole {tests : Tests} {rooms rooms' : Rooms} {socketId : SocketId}
    {roomCode : RoomCode} {out : List Emit}
    (h : getRoomRole rooms socketId roomCode = .ok (rooms', out)) :
    Step tests rooms socketId (.getRoomRole roomCode) rooms' out := by
  cases hroom : Obj.get? rooms roomCode with
  | none =>
    simp only [getRoomRole, hroom, Except.ok.injEq, Prod.mk.injEq] at h
    rw [← h.1, ← h.2]
    exact .roleUnknownRoom roomCode hroom
  | some room =>
    simp only [getRoomRole, hroom, Except.ok.injEq, Prod.mk.injEq] at h
    obtain ⟨h1, h2⟩ := h
    subst h1 h2
    refine .role roomCode room _ hroom ?_
    simp [NoError]

/-- Every completed run of a handler goes through one of the branches of `Step`. -/
theorem step_of_handle {tests : Tests} {rooms rooms' : Rooms} {socketId : SocketId}
    {event : Event} {out : List Emit}
    (h : handle tests rooms socketId event = .ok (rooms', out)) :
    Step tests rooms socketId event rooms' out := by
  cases event with
  | hostRoom testId draws => exact step_of_hostRoom h
  | joinRoom roomCode displayName => exact step_of_joinRoom h
  | leaveRoom roomCode => exact step_of_leaveRoom h
  | startGame roomCode now => exact step_of_startGame h
  | advanceQuestion roomCode now => exact step_of_advanceQuestion h
  | submitAnswer roomCode answer now => exact step_of_submitAnswer h
  | endGame roomCode => exact step_of_endGame h
  | getRoomRole roomCode => exact step_of_getRoomRole h
  | revealAnswer roomCode =>
    simp only [handle, Except.ok.injEq, Prod.mk.injEq] at h
    rw [← h.1, ← h.2]
    exact .revealDropped roomCode
  | disconnect =>
    simp only [handle, disconnect, Except.ok.injEq] at h
    have h1 : (disconnectLoop socketId rooms).1 = rooms' := by rw [h]
    have h2 : (disconnectLoop socketId rooms).2 = out := by rw [h]
    rw [← h1, ← h2]
    exact .disconnected _ (noError_disconnectLoop socketId rooms)

/-! ## Errors leave the registry unchanged -/

theorem Obj.set_eq_self {κ α : Type} [DecidableEq κ] {o : List (κ × α)} {k : κ} {v : α}
    (h : Obj.get? o k = some v) : Obj.set o k v = o := by
  induction o with
  | nil => simp [Obj.get?] at h
  | cons e rest ih =>
    obtain ⟨k', v'⟩ := e
    by_cases hk : k' = k
    · simp only [Obj.get?, hk, if_true, Option.some.injEq] at h
      simp [Obj.set, hk, h]
    · simp only [Obj.get?, hk, if_false] at h
      simp [Obj.set, hk, ih h]

theorem Room.with_gameEnded_eq_self (room : Room) (h : room.gameEnded = true) :
    { room with gameEnded := true } = room := by
  cases room
  simp only [Room.mk.injEq] at *
  simp [h]

/-- The sample room, ended by the host after Ann's answer. -/
def endedRoom : Room := { sampleAnsweredRoom with gameEnded := true }

/-- C12, as stated, fails: `start-game` from the host of an ended room is carried out;
it empties `playerAnswers`, resets every score to 0 and stamps a new start time. -/
theorem startGame_on_ended_room_resets :
    endedRoom.gameEnded = true ∧ endedRoom.hostSocketId = "host" ∧
    startGame [(1234, endedRoom)] "host" 1234 9000 =
      .ok ([(1234, startedRoom endedRoom 9000)],
        [(.room 1234,
           .questionStarted 0 (questionAt endedRoom.test.questions 0) 2 9000)]) ∧
    (startedRoom endedRoom 9000).playerAnswers ≠ endedRoom.playerAnswers ∧
    (startedRoom endedRoom 9000).playerScores ≠ endedRoom.playerScores ∧
    (startedRoom endedRoom 9000).questionStartTime ≠ endedRoom.questionStartTime := by
  refine ⟨rfl, rfl, ?_, ?_, ?_, ?_⟩
  · rw [@startGame_host [(1234, endedRoom)] "host" 1234 endedRoom 9000 rfl rfl]
    rfl
  · simp [startedRoom, endedRoom, sampleAnsweredRoom]
  · simp [startedRoom, endedRoom, sampleAnsweredRoom, sampleRoom, Obj.keys, Obj.set]
  · simp [startedRoom, endedRoom, sampleAnsweredRoom, sampleRoom]

/-- C12, amended. For a room with `gameEnded = true` and a request from its host:
`end-game`, and `advance-question` when `currentQuestionIndex` is at or past the last
index, leave the registry, hence all of the room, unchanged; `start-game`, and
`advance-question` before the last index, are carried out as on any room, and the room
they leave still has `gameEnded = true`. -/
theorem ended_room_stays_ended (rooms : Rooms) (socketId : SocketId) (roomCode : RoomCode)
    (room : Room) (now : Int)
    (hroom : Obj.get? rooms roomCode = some room) (hhost : room.hostSocketId = socketId)
    (hended : room.gameEnded = true) :
    (∃ out, endGame rooms socketId roomCode = .ok (rooms, out)) ∧
    (room.currentQuestionIndex ≥ (room.test.questions.length : Int) - 1 →
      ∃ out, advanceQuestion rooms socketId roomCode now = .ok (rooms, out)) ∧
    (room.currentQuestionIndex < (room.test.questions.length : Int) - 1 →
      ∃ out, advanceQuestion rooms socketId roomCode now =
          .ok (Obj.set rooms roomCode (advancedRoom room now), out) ∧
        Obj.get? (Obj.set rooms roomCode (advancedRoom room now)) roomCode =
          some (advancedRoom room now) ∧
        (advancedRoom room now).gameEnded = true) ∧
    (∃ out, startGame rooms socketId roomCode now =
        .ok (Obj.set rooms roomCode (startedRoom room now), out) ∧
      Obj.get? (Obj.set rooms roomCode (startedRoom room now)) roomCode =
        some (startedRoom room now) ∧
      (startedRoom room now).gameEnded = true) := by
  have hsame : Obj.set rooms roomCode { room with gameEnded := true } = rooms := by
    rw [Room.with_gameEnded_eq_self room hended]
    exact Obj.set_eq_self hroom
  refine ⟨?_, ?_, ?_, ?_⟩
  · have hrun := endGame_host hroom hhost
    rw [hsame] at hrun
    exact ⟨_, hrun⟩
  · intro hlast
    have hrun := advanceQuestion_host_last now hroom hhost hlast
    rw [hsame] at hrun
    exact ⟨_, hrun⟩
  · intro hnext
    exact ⟨_, advanceQuestion_host_next now hroom hhost (not_le.mpr hnext),
      Obj.get?_set_self _ _ _, hended⟩
  · exact ⟨_, startGame_host now hroom hhost, Obj.get?_set_self _ _ _, hended⟩

theorem ended_room_stays_ended_witness :
    ∃ out, endGame [(1234, endedRoom)] "host" 1234 = .ok ([(1234, endedRoom)], out) :=
  (ended_room_stays_ended [(1234, endedRoom)] "host" 1234 endedRoom 9000 rfl rfl rfl).1

/-! ## Lifecycle invariants -/

theorem disconnectLoop_mem {socketId : SocketId} {rooms : Rooms} {e : RoomCode × Room}
    (h : e ∈ (disconnectLoop socketId rooms).1) :
    ∃ room, (e.1, room) ∈ rooms ∧ (e.2 = room ∨ e.2 = departedRoom room socketId) := by
  induction rooms with
  | nil => simp [disconnectLoop] at h
  | cons e' rest ih =>
    obtain ⟨code, room⟩ := e'
    by_cases hhost : room.hostSocketId = socketId
    · simp only [disconnectLoop, hhost, if_true] at h
      exact ⟨e.2, List.mem_cons_of_mem _ h, Or.inl rfl⟩
    · by_cases hplayer : Obj.has room.players socketId = true
      · simp only [disconnectLoop, hhost, hplayer, if_true, if_false, List.mem_cons] at h
        rcases h with h | h
        · exact ⟨room, by rw [h]; exact List.mem_cons_self _ _, Or.inr (by rw [h]; rfl)⟩
        · obtain ⟨room', hmem, hroom'⟩ := ih h
          exact ⟨room', List.mem_cons_of_mem _ hmem, hroom'⟩
      · have hp : Obj.has room.players socketId = false := by simpa using hplayer
        simp only [disconnectLoop, hhost, hp, Bool.false_eq_true, if_false,
          List.mem_cons] at h
        rcases h with h | h
        · exact ⟨room, by rw [h]; exact List.mem_cons_self _ _, Or.inl (by rw [h])⟩
        · obtain ⟨room', hmem, hroom'⟩ := ih h
          exact ⟨room', List.mem_cons_of_mem _ hmem, hroom'⟩

/-- A property of a room's test, question index and two flags that holds for a new room
and is kept by starting, by advancing before the last index and by ending holds in every
room of every reachable registry. -/
theorem reachable_lifecycle {tests : Tests} (I : Test → Int → Bool → Bool → Prop)
    (hnew : ∀ testId test, Obj.get? tests testId = some test → I test (-1) false false)
    (hstart : ∀ test index started ended, I test index started ended → I test 0 true ended)
    (hadvance : ∀ test index started ended, I test index started ended →
      index < (test.questions.length : Int) - 1 → I test (index + 1) started ended)
    (hend : ∀ test index started ended, I test index started ended →
      I test index started true)
    {rooms : Rooms} (h : Reachable tests rooms) :
    ∀ e ∈ rooms, I e.2.test e.2.currentQuestionIndex e.2.gameStarted e.2.gameEnded := by
  induction h with
  | init => intro e he; simp at he
  | step socketId event _ hrun ih =>
    have hstep := step_of_handle hrun
    intro e he
    cases hstep with
    | hostCreated testId draws test code out htest hcode hout =>
      rcases mem_setRoom he with he | he
      · exact ih e he
      · rw [he]; exact hnew testId test htest
    | joined roomCode displayName room out hroom hended hname hout =>
      rcases Obj.mem_set he with he | he
      · exact ih e he
      · rw [he]; exact ih (roomCode, room) (Obj.mem_of_get?_eq_some hroom)
    | leaveHost roomCode room out hroom hhost hout =>
      exact ih e (Obj.mem_of_mem_delete he)
    | leavePlayer roomCode room out hroom hhost hplayer hout =>
      rcases Obj.mem_set he with he | he
      · exact ih e he
      · rw [he]; exact ih (roomCode, room) (Obj.mem_of_get?_eq_some hroom)
    | started roomCode now room out hroom hhost hout =>
      rcases Obj.mem_set he with he | he
      · exact ih e he
      · rw [he]; exact hstart _ _ _ _ (ih (roomCode, room) (Obj.mem_of_get?_eq_some hroom))
    | advancedLast roomCode now room out hroom hhost hlast hout =>
      rcases Obj.mem_set he with he | he
      · exact ih e he
      · rw [he]; exact hend _ _ _ _ (ih (roomCode, room) (Obj.mem_of_get?_eq_some hroom))
    | advancedNext roomCode now room out hroom hhost hnext hout =>
      rcases Obj.mem_set he with he | he
      · exact ih e he
      · rw [he]; exact hadvance _ _ _ _ (ih (roomCode, room) (Obj.mem_of_get?_eq_some hroom)) hnext
    | submitAccepted roomCode answer now room player q out hroom hplayer hidx hs hended hprev
        hq hout =>
      rcases Obj.mem_set he with he | he
      · exact ih e he
      · rw [he]; exact ih (roomCode, room) (Obj.mem_of_get?_eq_some hroom)
    | ended roomCode room out hroom hhost hout =>
      rcases Obj.mem_set he with he | he
      · exact ih e he
      · rw [he]; exact hend _ _ _ _ (ih (roomCode, room) (Obj.mem_of_get?_eq_some hroom))
    | disconnected out hout =>
      obtain ⟨room, hmem, hroom⟩ := disconnectLoop_mem he
      rcases hroom with hroom | hroom
      · rw [hroom]; exact ih (e.1, room) hmem
      · rw [hroom]; exact ih (e.1, room) hmem
    | _ => exact ih e he

/-! ## A worked session

One host, one player, the sample test; every timestamp is 0, so every answer is given
0 s after its question started. -/

def firstQuestion : Question :=
  { question := "2 + 2", choices := [("a", "3"), ("b", "4")], answer := "b",
    explanation := none }

/-- After `host-room` from "host". -/
def lobbyRoom : Room := newRoom 1234 "host" "algebra" sampleTest

/-- After `join-room` from "ann". -/
def annJoinedRoom : Room := joinedRoom lobbyRoom "ann" "Ann"

/-- After `start-game` from "host". -/
def annStartedRoom : Room := startedRoom annJoinedRoom 0

/-- After the correct answer of "ann" to the first question. -/
def annAnsweredRoom : Room := answeredRoom annStartedRoom "ann" "b" 0 firstQuestion

/-- After `leave-room` from "ann". -/
def annLeftRoom : Room := departedRoom annAnsweredRoom "ann"

/-- After "ann" joined again. -/
def annRejoinedRoom : Room := joinedRoom annLeftRoom "ann" "Ann"

/-- After a second correct answer of "ann" to the same first question. -/
def annAnsweredTwiceRoom : Room := answeredRoom annRejoinedRoom "ann" "b" 0 firstQuestion

theorem reachable_lobbyRoom : Reachable sampleTests [(1234, lobbyRoom)] := by
  have h : handle sampleTests [] "host" (.hostRoom "algebra" [drawTaken]) =
      .ok ([(1234, lobbyRoom)], [(.socket "host", .roomCreated 1234)]) := by
    simp [handle, hostRoom, sampleTests, Obj.get?, generateRoomCode, Obj.has,
      candidateCode_drawTaken, setRoom, lobbyRoom]
  exact Reachable.step "host" _ Reachable.init h

theorem reachable_annJoinedRoom : Reachable sampleTests [(1234, annJoinedRoom)] :=
  Reachable.step "ann" (.joinRoom 1234 "Ann") reachable_lobbyRoom
    (@joinRoom_joined [(1234, lobbyRoom)] "ann" 1234 "Ann" lobbyRoom rfl rfl (by decide))

theorem reachable_annStartedRoom : Reachable sampleTests [(1234, annStartedRoom)] :=
  Reachable.step "host" (.startGame 1234 0) reachable_annJoinedRoom
    (@startGame_host [(1234, annJoinedRoom)] "host" 1234 annJoinedRoom 0 rfl rfl)

theorem reachable_annAnsweredRoom : Reachable sampleTests [(1234, annAnsweredRoom)] :=
  Reachable.step "ann" (.submitAnswer 1234 "b" 0) reachable_annStartedRoom
    (@submitAnswer_accepted [(1234, annStartedRoom)] "ann" 1234 annStartedRoom
      { socketId := "ann", displayName := "Ann" } firstQuestion "b" 0 rfl rfl (by decide)
      rfl rfl rfl rfl)

theorem reachable_annLeftRoom : Reachable sampleTests [(1234, annLeftRoom)] :=
  Reachable.step "ann" (.leaveRoom 1234) reachable_annAnsweredRoom
    (@leaveRoom_player [(1234, annAnsweredRoom)] "ann" 1234 annAnsweredRoom rfl
      (by decide) rfl)

theorem reachable_annRejoinedRoom : Reachable sampleTests [(1234, annRejoinedRoom)] :=
  Reachable.step "ann" (.joinRoom 1234 "Ann") reachable_annLeftRoom
    (@joinRoom_joined [(1234, annLeftRoom)] "ann" 1234 "Ann" annLeftRoom rfl rfl (by decide))

theorem reachable_annAnsweredTwiceRoom :
    Reachable sampleTests [(1234, annAnsweredTwiceRoom)] :=
  Reachable.step "ann" (.submitAnswer 1234 "b" 0) reachable_annRejoinedRoom
    (@submitAnswer_accepted [(1234, annRejoinedRoom)] "ann" 1234 annRejoinedRoom
      { socketId := "ann", displayName := "Ann" } firstQuestion "b" 0 rfl rfl (by decide)
      rfl rfl rfl rfl)

/-- The cumulative score of a player, `playerScores[socketId] || 0`. -/
def scoreOf (room : Room) (socketId : SocketId) : ℚ :=
  (Obj.get? room.playerScores socketId).getD 0

theorem awardedPoints_session :
    awardedPoints (((0 - (some (0 : Int)).getD 0 : Int) : ℚ) / 1000) (decide ("b" = "b")) =
      10 := by
  have h : (((0 - (some (0 : Int)).getD 0 : Int) : ℚ) / 1000) = 0 := by simp
  rw [h]
  exact awardedPoints_at_start

theorem scoreOf_annAnsweredRoom : scoreOf annAnsweredRoom "ann" = 10 := by
  have h : Obj.get? annAnsweredRoom.playerScores "ann" =
      some ((mathRound (((Obj.get? annStartedRoom.playerScores "ann").getD 0 +
        awardedPoints (((0 - (some (0 : Int)).getD 0 : Int) : ℚ) / 1000)
          (decide ("b" = "b"))) * 100) : ℚ) / 100) :=
    get?_accumulate annStartedRoom.playerScores "ann" _
  have hold : (Obj.get? annStartedRoom.playerScores "ann").getD 0 = 0 := rfl
  have hround : mathRound (((0 : ℚ) + 10) * 100) = 1000 := by
    rw [mathRound_eq_iff]; constructor <;> norm_num
  rw [scoreOf, h, hold, awardedPoints_session, hround]
  norm_num

theorem scoreOf_annAnsweredTwiceRoom : scoreOf annAnsweredTwiceRoom "ann" = 20 := by
  have h : Obj.get? annAnsweredTwiceRoom.playerScores "ann" =
      some ((mathRound (((Obj.get? annRejoinedRoom.playerScores "ann").getD 0 +
        awardedPoints (((0 - (some (0 : Int)).getD 0 : Int) : ℚ) / 1000)
          (decide ("b" = "b"))) * 100) : ℚ) / 100) :=
    get?_accumulate annRejoinedRoom.playerScores "ann" _
  have hold : (Obj.get? annRejoinedRoom.playerScores "ann").getD 0 = 10 :=
    scoreOf_annAnsweredRoom
  have hround : mathRound (((10 : ℚ) + 10) * 100) = 2000 := by
    rw [mathRound_eq_iff]; constructor <;> norm_num
  rw [scoreOf, h, hold, awardedPoints_session, hround]
  norm_num

/-! ## The range of the question index -/

/-- A test bank whose only test has no question. -/
def emptyTests : Tests := [("empty", { questions := [] })]

/-- A room on the empty test, after "ann" joined. -/
def emptyJoinedRoom : Room :=
  joinedRoom (newRoom 1234 "host" "empty" { questions := [] }) "ann" "Ann"

/-- A room on the empty test, after "ann" joined and the host started the game. -/
def emptyStartedRoom : Room := startedRoom emptyJoinedRoom 0

theorem reachable_emptyStartedRoom : Reachable emptyTests [(1234, emptyStartedRoom)] := by
  have h1 : handle emptyTests [] "host" (.hostRoom "empty" [drawTaken]) =
      .ok ([(1234, newRoom 1234 "host" "empty" { questions := [] })],
        [(.socket "host", .roomCreated 1234)]) := by
    simp [handle, hostRoom, emptyTests, Obj.get?, generateRoomCode, Obj.has,
      candidateCode_drawTaken, setRoom]
  have r1 := Reachable.step "host" _ Reachable.init h1
  have r2 : Reachable emptyTests [(1234, emptyJoinedRoom)] :=
    Reachable.step "ann" (.joinRoom 1234 "Ann") r1
      (@joinRoom_joined [(1234, newRoom 1234 "host" "empty" { questions := [] })] "ann" 1234
        "Ann" (newRoom 1234 "host" "empty" { questions := [] }) rfl rfl (by decide))
  exact Reachable.step "host" (.startGame 1234 0) r2
    (@startGame_host [(1234, emptyJoinedRoom)] "host" 1234 emptyJoinedRoom 0 rfl rfl)

/-- C13, as stated, fails: on a test without questions `start-game` sets
`currentQuestionIndex` to 0 while the last index is -1; the room is not ended, a
`submit-answer` of its player passes the in-progress check, and the lookup of the
current question fails, so the handler throws. -/
theorem empty_test_index_out_of_range :
    Reachable emptyTests [(1234, emptyStartedRoom)] ∧
    emptyStartedRoom.gameEnded = false ∧
    ¬ emptyStartedRoom.currentQuestionIndex ≤
        (emptyStartedRoom.test.questions.length : Int) - 1 ∧
    0 ≤ emptyStartedRoom.currentQuestionIndex ∧ emptyStartedRoom.gameStarted = true ∧
    questionAt emptyStartedRoom.test.questions emptyStartedRoom.currentQuestionIndex = none ∧
    submitAnswer [(1234, emptyStartedRoom)] "ann" 1234 "a" 0 = .error .typeError := by
  refine ⟨reachable_emptyStartedRoom, rfl, by decide, by decide, rfl, rfl, ?_⟩
  have hfirst : Obj.has emptyStartedRoom.playerAnswers "ann" = false := rfl
  have hq : questionAt emptyStartedRoom.test.questions emptyStartedRoom.currentQuestionIndex
      = none := rfl
  have hroom : Obj.get? [(1234, emptyStartedRoom)] 1234 = some emptyStartedRoom := rfl
  have hplayer : Obj.get? emptyStartedRoom.players "ann" =
      some { socketId := "ann", displayName := "Ann" } := rfl
  have hidx : ¬ emptyStartedRoom.currentQuestionIndex < 0 := by decide
  have hstarted : emptyStartedRoom.gameStarted = true := rfl
  have hended : emptyStartedRoom.gameEnded = false := rfl
  simp [submitAnswer, hroom, hplayer, hidx, hstarted, hended, hfirst, hq]

theorem questionAt_isSome {questions : List Question} {i : Int} (hlo : 0 ≤ i)
    (hhi : i ≤ (questions.length : Int) - 1) : ∃ q, questionAt questions i = some q := by
  have hlt : i.toNat < questions.length := by omega
  exact ⟨questions[i.toNat], by
    simp only [questionAt, not_lt.mpr hlo, if_false]
    exact List.getElem?_eq_getElem hlt⟩

theorem submitAnswer_error {rooms : Rooms} {socketId : SocketId} {roomCode : RoomCode}
    {answer : String} {now : Int} {failure : Failure}
    (h : submitAnswer rooms socketId roomCode answer now = .error failure) :
    ∃ room, Obj.get? rooms roomCode = some room ∧ 0 ≤ room.currentQuestionIndex ∧
      questionAt room.test.questions room.currentQuestionIndex = none := by
  cases hroom : Obj.get? rooms roomCode with
  | none => simp [submitAnswer, hroom] at h
  | some room =>
    cases hplayer : Obj.get? room.players socketId with
    | none => simp [submitAnswer, hroom, hplayer] at h
    | some player =>
      by_cases hidx : room.currentQuestionIndex < 0
      · simp [submitAnswer, hroom, hplayer, hidx] at h
      · cases hstarted : room.gameStarted with
        | false => simp [submitAnswer, hroom, hplayer, hstarted] at h
        | true =>
          cases hended : room.gameEnded with
          | true => simp [submitAnswer, hroom, hplayer, hended] at h
          | false =>
            have hidx' : 0 ≤ room.currentQuestionIndex := not_lt.mp hidx
            cases hprev : Obj.get? room.playerAnswers socketId with
            | some previous =>
              rw [submitAnswer_repeat_ignored_run hroom hplayer hidx' hstarted hended hprev] at h
              simp at h
            | none =>
              cases hq : questionAt room.test.questions room.currentQuestionIndex with
              | none => exact ⟨room, rfl, hidx', hq⟩
              | some q =>
                rw [submitAnswer_accepted answer now hroom hplayer hidx' hstarted hended hprev
                  hq] at h
                simp at h

/-- C13, amended. When every test of the bank has at least one question, every room of
every reachable registry, ended or not, satisfies
`-1 ≤ currentQuestionIndex ≤ totalQuestions - 1`; hence the current question exists
whenever `currentQuestionIndex ≥ 0`, and `submit-answer` always runs to completion. -/
theorem questionIndex_in_range (tests : Tests) (rooms : Rooms)
    (hbank : ∀ testId test, Obj.get? tests testId = some test → test.questions ≠ [])
    (hreach : Reachable tests rooms) :
    (∀ roomCode room, (roomCode, room) ∈ rooms →
      -1 ≤ room.currentQuestionIndex ∧
        room.currentQuestionIndex ≤ (room.test.questions.length : Int) - 1) ∧
    (∀ roomCode room, Obj.get? rooms roomCode = some room → 0 ≤ room.currentQuestionIndex →
      ∃ q, questionAt room.test.questions room.currentQuestionIndex = some q) ∧
    (∀ socketId roomCode answer now, ∃ rooms' out,
      submitAnswer rooms socketId roomCode answer now = .ok (rooms', out)) := by
  have hinv := reachable_lifecycle
    (fun test index _ _ =>
      1 ≤ test.questions.length ∧ -1 ≤ index ∧ index ≤ (test.questions.length : Int) - 1)
    (by
      intro testId test htest
      have hne := hbank testId test htest
      have hlen : 1 ≤ test.questions.length := List.length_pos.mpr hne
      exact ⟨hlen, le_refl _, by omega⟩)
    (by
      intro test index _ _ h
      exact ⟨h.1, by omega, by omega⟩)
    (by
      intro test index _ _ h hnext
      exact ⟨h.1, by omega, by omega⟩)
    (by
      intro test index _ _ h
      exact h)
    hreach
  have hq : ∀ roomCode room, Obj.get? rooms roomCode = some room →
      0 ≤ room.currentQuestionIndex →
      ∃ q, questionAt room.test.questions room.currentQuestionIndex = some q := by
    intro roomCode room hroom hidx
    exact questionAt_isSome hidx (hinv (roomCode, room) (Obj.mem_of_get?_eq_some hroom)).2.2
  refine ⟨fun roomCode room hmem => (hinv (roomCode, room) hmem).2, hq, ?_⟩
  intro socketId roomCode answer now
  cases hrun : submitAnswer rooms socketId roomCode answer now with
  | ok result => exact ⟨result.1, result.2, rfl⟩
  | error failure =>
    obtain ⟨room, hroom, hidx, hnone⟩ := submitAnswer_error hrun
    obtain ⟨q, hsome⟩ := hq roomCode room hroom hidx
    rw [hnone] at hsome
    exact absurd hsome (by simp)

theorem sampleTests_nonempty :
    ∀ testId test, Obj.get? sampleTests testId = some test → test.questions ≠ [] := by
  intro testId test h
  by_cases hid : "algebra" = testId
  · simp [sampleTests, Obj.get?, hid] at h
    rw [← h]
    simp [sampleTest, sampleQuestions]
  · simp [sampleTests, Obj.get?, hid] at h

theorem questionIndex_in_range_witness :
    (∀ roomCode room, (roomCode, room) ∈ [(1234, annStartedRoom)] →
      -1 ≤ room.currentQuestionIndex ∧
        room.currentQuestionIndex ≤ (room.test.questions.length : Int) - 1) ∧
    (∀ roomCode room, Obj.get? [(1234, annStartedRoom)] roomCode = some room →
      0 ≤ room.currentQuestionIndex →
      ∃ q, questionAt room.test.questions room.currentQuestionIndex = some q) ∧
    (∀ socketId roomCode answer now, ∃ rooms' out,
      submitAnswer [(1234, annStartedRoom)] socketId roomCode answer now =
        .ok (rooms', out)) :=
  questionIndex_in_range sampleTests [(1234, annStartedRoom)] sampleTests_nonempty
    reachable_annStartedRoom

/-! ## Room codes stay distinct -/

theorem Obj.get?_delete_self {κ α : Type} [DecidableEq κ] (o : List (κ × α)) (k : κ) :
    Obj.get? (Obj.delete o k) k = none := by
  apply Obj.get?_eq_none_of_not_mem_keys
  intro hmem
  obtain ⟨e, he, hk⟩ := List.mem_map.mp hmem
  have := (List.mem_filter.mp he).2
  simp [hk] at this

theorem Obj.get?_delete_of_ne {κ α : Type} [DecidableEq κ] (o : List (κ × α)) {k j : κ}
    (h : k ≠ j) : Obj.get? (Obj.delete o k) j = Obj.get? o j := by
  induction o with
  | nil => rfl
  | cons e rest ih =>
    obtain ⟨k', v'⟩ := e
    by_cases hk : k' = k
    · have hj : ¬ k' = j := by rw [hk]; exact h
      simp only [Obj.delete, List.filter_cons, hk, ne_eq, not_true_eq_false, decide_False,
        Bool.false_eq_true, if_false]
      simp only [Obj.get?, hk ▸ hj, if_false]
      exact ih
    · have hdec : decide ((k', v').1 ≠ k) = true := by simpa using hk
      simp only [Obj.delete, List.filter_cons, hdec, if_true]
      by_cases hj : k' = j
      · simp [Obj.get?, hj]
      · simp only [Obj.get?, hj, if_false]
        exact ih

theorem Obj.keys_set_of_get? {κ α : Type} [DecidableEq κ] {o : List (κ × α)} {k : κ}
    {v : α} (w : α) (h : Obj.get? o k = some v) : Obj.keys (Obj.set o k w) = Obj.keys o := by
  induction o with
  | nil => simp [Obj.get?] at h
  | cons e rest ih =>
    obtain ⟨k', v'⟩ := e
    by_cases hk : k' = k
    · simp [Obj.set, Obj.keys, hk]
    · simp only [Obj.get?, hk, if_false] at h
      have := ih h
      simp only [Obj.keys] at this
      simp [Obj.set, Obj.keys, hk, this]

theorem keys_disconnectLoop_sublist (socketId : SocketId) (rooms : Rooms) :
    List.Sublist (Obj.keys (disconnectLoop socketId rooms).1) (Obj.keys rooms) := by
  induction rooms with
  | nil => simp [disconnectLoop, Obj.keys]
  | cons e rest ih =>
    obtain ⟨code, room⟩ := e
    by_cases hhost : room.hostSocketId = socketId
    · simp only [disconnectLoop, hhost, if_true, Obj.keys, List.map_cons]
      exact List.sublist_cons_self _ _
    · by_cases hplayer : Obj.has room.players socketId = true
      · simp only [disconnectLoop, hhost, hplayer, if_true, if_false, Obj.keys, List.map_cons]
        exact ih.cons₂ code
      · have hp : Obj.has room.players socketId = false := by simpa using hplayer
        simp only [disconnectLoop, hhost, hp, Bool.false_eq_true, if_false, Obj.keys,
          List.map_cons]
        exact ih.cons₂ code

/-- No two rooms of a reachable registry have the same code. -/
theorem reachable_keys_nodup {tests : Tests} {rooms : Rooms} (h : Reachable tests rooms) :
    (Obj.keys rooms).Nodup := by
  induction h with
  | init => simp [Obj.keys]
  | step socketId event _ hrun ih =>
    have hstep := step_of_handle hrun
    cases hstep with
    | hostCreated testId draws test code out htest hcode hout =>
      have hfree := (generateRoomCode_eq_some hcode).2
      have hperm := (setRoom_perm _ code (newRoom code socketId testId test) hfree).map Prod.fst
      refine hperm.nodup_iff.mpr ?_
      simp only [List.map_cons, List.nodup_cons]
      exact ⟨Obj.not_mem_keys_of_get?_eq_none _ _ hfree, ih⟩
    | joined roomCode displayName room out hroom hended hname hout =>
      rw [Obj.keys_set_of_get? _ hroom]; exact ih
    | leaveHost roomCode room out hroom hhost hout =>
      exact ((List.filter_sublist _).map Prod.fst).nodup ih
    | leavePlayer roomCode room out hroom hhost hplayer hout =>
      rw [Obj.keys_set_of_get? _ hroom]; exact ih
    | started roomCode now room out hroom hhost hout =>
      rw [Obj.keys_set_of_get? _ hroom]; exact ih
    | advancedLast roomCode now room out hroom hhost hlast hout =>
      rw [Obj.keys_set_of_get? _ hroom]; exact ih
    | advancedNext roomCode now room out hroom hhost hnext hout =>
      rw [Obj.keys_set_of_get? _ hroom]; exact ih
    | submitAccepted roomCode answer now room player q out hroom hplayer hidx hs hended hprev
        hq hout =>
      rw [Obj.keys_set_of_get? _ hroom]; exact ih
    | ended roomCode room out hroom hhost hout =>
      rw [Obj.keys_set_of_get? _ hroom]; exact ih
    | disconnected out hout =>
      exact (keys_disconnectLoop_sublist socketId _).nodup ih
    | _ => exact ih

/-! ## What changes a cumulative score -/

theorem Obj.get?_set_cases {κ α : Type} [DecidableEq κ] {o : List (κ × α)} {k j : κ}
    {v w : α} (h : Obj.get? (Obj.set o k v) j = some w) :
    (j = k ∧ w = v) ∨ (j ≠ k ∧ Obj.get? o j = some w) := by
  by_cases hjk : k = j
  · subst hjk
    rw [Obj.get?_set_self] at h
    exact Or.inl ⟨rfl, (Option.some.inj h).symm⟩
  · rw [Obj.get?_set_of_ne _ _ hjk] at h
    exact Or.inr ⟨fun hj => hjk hj.symm, h⟩

theorem get?_accumulate_of_ne (playerScores : List (SocketId × ℚ)) {socketId playerId : SocketId}
    (points : ℚ) (h : socketId ≠ playerId) :
    Obj.get? (accumulate playerScores socketId points) playerId =
      Obj.get? playerScores playerId := by
  unfold accumulate
  cases hget : Obj.get? playerScores socketId with
  | none => simp [Obj.get?_set_of_ne _ _ h]
  | some s =>
    by_cases hs : s = 0
    · simp [hs, Obj.get?_set_of_ne _ _ h]
    · simp [hs, Obj.get?_set_of_ne _ _ h]

theorem get?_foldl_set_zero (keys : List SocketId) (acc : List (SocketId × ℚ))
    (playerId : SocketId) (hacc : (Obj.get? acc playerId).getD 0 = 0) :
    (Obj.get? (keys.foldl (fun scores id => Obj.set scores id 0) acc) playerId).getD 0 = 0 := by
  induction keys generalizing acc with
  | nil => exact hacc
  | cons k rest ih =>
    simp only [List.foldl_cons]
    apply ih
    by_cases hk : k = playerId
    · rw [hk, Obj.get?_set_self]; rfl
    · rw [Obj.get?_set_of_ne _ _ hk]; exact hacc

theorem scoreOf_startedRoom (room : Room) (now : Int) (playerId : SocketId) :
    scoreOf (startedRoom room now) playerId = 0 :=
  get?_foldl_set_zero (Obj.keys room.players) [] playerId rfl

theorem disconnectLoop_get? {socketId : SocketId} {rooms : Rooms} {roomCode : RoomCode}
    {room room' : Room} (hkeys : (Obj.keys rooms).Nodup)
    (hroom : Obj.get? rooms roomCode = some room)
    (hroom' : Obj.get? (disconnectLoop socketId rooms).1 roomCode = some room') :
    room' = room ∨ room' = departedRoom room socketId := by
  induction rooms with
  | nil => simp [Obj.get?] at hroom
  | cons e rest ih =>
    obtain ⟨code, r⟩ := e
    simp only [Obj.keys, List.map_cons, List.nodup_cons] at hkeys
    by_cases hcode : code = roomCode
    · have hr : r = room := by simpa [Obj.get?, hcode] using hroom
      by_cases hhost : r.hostSocketId = socketId
      · simp only [disconnectLoop, hhost, if_true] at hroom'
        have hmem : roomCode ∈ Obj.keys rest := by
          have := Obj.mem_of_get?_eq_some hroom'
          exact List.mem_map.mpr ⟨_, this, rfl⟩
        exact absurd (by rw [hcode]; exact hmem) hkeys.1
      · by_cases hplayer : Obj.has r.players socketId = true
        · simp only [disconnectLoop, hhost, hplayer, if_true, if_false, Obj.get?,
            hcode, Option.some.injEq] at hroom'
          right; rw [← hroom', ← hr]; rfl
        · have hp : Obj.has r.players socketId = false := by simpa using hplayer
          simp only [disconnectLoop, hhost, hp, Bool.false_eq_true, if_false, Obj.get?,
            hcode, if_true, Option.some.injEq] at hroom'
          left; rw [← hroom', hr]
    · have hrest : Obj.get? rest roomCode = some room := by
        simpa [Obj.get?, hcode] using hroom
      by_cases hhost : r.hostSocketId = socketId
      · simp only [disconnectLoop, hhost, if_true] at hroom'
        rw [hrest] at hroom'
        exact Or.inl (Option.some.inj hroom').symm
      · by_cases hplayer : Obj.has r.players socketId = true
        · simp only [disconnectLoop, hhost, hplayer, if_true, if_false, Obj.get?,
            hcode] at hroom'
          exact ih hkeys.2 hrest hroom'
        · have hp : Obj.has r.players socketId = false := by simpa using hplayer
          simp only [disconnectLoop, hhost, hp, Bool.false_eq_true, if_false, Obj.get?,
            hcode] at hroom'
          exact ih hkeys.2 hrest hroom'

theorem scoreOf_of_set {rooms : Rooms} {code roomCode : RoomCode} {room₀ room room' x : Room}
    {playerId : SocketId} (hroom₀ : Obj.get? rooms code = some room₀)
    (hroom : Obj.get? rooms roomCode = some room)
    (hroom' : Obj.get? (Obj.set rooms code x) roomCode = some room')
    (hx : roomCode = code → room₀ = room → scoreOf x playerId = scoreOf room playerId) :
    scoreOf room' playerId = scoreOf room playerId := by
  rcases Obj.get?_set_cases hroom' with ⟨hk, hv⟩ | ⟨_, hget⟩
  · have h₀ : room₀ = room := by
      rw [← hk, hroom] at hroom₀
      exact (Option.some.inj hroom₀).symm
    rw [hv]
    exact hx hk h₀
  · rw [hroom] at hget
    rw [← Option.some.inj hget]

/-- C14, amended. In a reachable registry, take a room that exists before and after an
event, and a player id.  Unless the event is a `start-game` for that room from its host,
or a `submit-answer` for that room from that player which is accepted (the player is
registered, the game is in progress and no Answer is stored for the player), the
player's cumulative score, read as 0 when absent, is the same before and after.  A
`start-game` from the host is carried out in every state and leaves every score at 0. -/
theorem score_kept_unless_answer_or_start (tests : Tests) (rooms rooms' : Rooms)
    (socketId : SocketId) (event : Event) (out : List Emit) (roomCode : RoomCode)
    (room room' : Room) (playerId : SocketId)
    (hreach : Reachable tests rooms)
    (hrun : handle tests rooms socketId event = .ok (rooms', out))
    (hroom : Obj.get? rooms roomCode = some room)
    (hroom' : Obj.get? rooms' roomCode = some room')
    (hnotStart : ∀ now, event = .startGame roomCode now → room.hostSocketId ≠ socketId)
    (hnotAnswer : ∀ answer now, event = .submitAnswer roomCode answer now →
      socketId = playerId →
      Obj.get? room.players playerId = none ∨ room.currentQuestionIndex < 0 ∨
        room.gameStarted = false ∨ room.gameEnded = true ∨
        Obj.has room.playerAnswers playerId = true) :
    scoreOf room' playerId = scoreOf room playerId ∧
    (room.hostSocketId = socketId → ∀ now, ∃ out,
      startGame rooms socketId roomCode now =
        .ok (Obj.set rooms roomCode (startedRoom room now), out) ∧
      scoreOf (startedRoom room now) playerId = 0) := by
  refine ⟨?_, fun hhost now =>
    ⟨_, startGame_host now hroom hhost, scoreOf_startedRoom room now playerId⟩⟩
  have hkeys := reachable_keys_nodup hreach
  have hsame : ∀ {r : Room}, Obj.get? rooms roomCode = some r →
      scoreOf r playerId = scoreOf room playerId := by
    intro r hr
    rw [hroom] at hr
    rw [← Option.some.inj hr]
  have hstep := step_of_handle hrun
  cases hstep with
  | hostCreated testId draws test code out htest hcode hout =>
    have hfree := (generateRoomCode_eq_some hcode).2
    have hne : roomCode ≠ code := by
      intro h
      rw [h, hfree] at hroom
      exact absurd hroom (by simp)
    rw [get?_setRoom_of_ne _ _ _ _ hne] at hroom'
    exact hsame hroom'
  | joined code displayName room₀ out hroom₀ hended hname hout =>
    exact scoreOf_of_set hroom₀ hroom hroom' (fun _ h => by rw [← h]; rfl)
  | leaveHost code room₀ out hroom₀ hhost hout =>
    by_cases hne : code = roomCode
    · rw [hne, Obj.get?_delete_self] at hroom'
      exact absurd hroom' (by simp)
    · rw [Obj.get?_delete_of_ne _ hne] at hroom'
      exact hsame hroom'
  | leavePlayer code room₀ out hroom₀ hhost hplayer hout =>
    exact scoreOf_of_set hroom₀ hroom hroom' (fun _ h => by rw [← h]; rfl)
  | started code now room₀ out hroom₀ hhost hout =>
    refine scoreOf_of_set hroom₀ hroom hroom' (fun hk h => ?_)
    rw [h] at hhost
    exact absurd hhost (hnotStart now (by rw [hk]))
  | advancedLast code now room₀ out hroom₀ hhost hlast hout =>
    exact scoreOf_of_set hroom₀ hroom hroom' (fun _ h => by rw [← h]; rfl)
  | advancedNext code now room₀ out hroom₀ hhost hnext hout =>
    exact scoreOf_of_set hroom₀ hroom hroom' (fun _ h => by rw [← h]; rfl)
  | submitAccepted code answer now room₀ player q out hroom₀ hplayer hidx hstarted hended
      hprev hq hout =>
    refine scoreOf_of_set hroom₀ hroom hroom' (fun hk h => ?_)
    by_cases hsame' : socketId = playerId
    · exfalso
      rw [h, hsame'] at hplayer hprev
      rw [h] at hidx hstarted hended
      rcases hnotAnswer answer now (by rw [hk]) hsame' with h1 | h1 | h1 | h1 | h1
      · rw [hplayer] at h1; simp at h1
      · exact absurd hidx (not_le.mpr h1)
      · rw [hstarted] at h1; simp at h1
      · rw [hended] at h1; simp at h1
      · simp [Obj.has, hprev] at h1
    · rw [← h]
      show (Obj.get? (accumulate room₀.playerScores socketId _) playerId).getD 0 = _
      rw [get?_accumulate_of_ne _ _ hsame']
      rfl
  | ended code room₀ out hroom₀ hhost hout =>
    exact scoreOf_of_set hroom₀ hroom hroom' (fun _ h => by rw [← h]; rfl)
  | disconnected out hout =>
    rcases disconnectLoop_get? hkeys hroom hroom' with h | h
    · rw [h]
    · rw [h]; rfl
  | _ => exact hsame hroom'

/-- C14, as stated, fails: after Ann's accepted answer her cumulative score is 10; a
further `start-game` from the host, which is not a submission, leaves it at 0. -/
theorem startGame_resets_score :
    Reachable sampleTests [(1234, annAnsweredRoom)] ∧
    scoreOf annAnsweredRoom "ann" = 10 ∧
    handle sampleTests [(1234, annAnsweredRoom)] "host" (.startGame 1234 0) =
      .ok ([(1234, startedRoom annAnsweredRoom 0)],
        [(.room 1234, .questionStarted 0 (some firstQuestion) 2 0)]) ∧
    scoreOf (startedRoom annAnsweredRoom 0) "ann" = 0 :=
  ⟨reachable_annAnsweredRoom, scoreOf_annAnsweredRoom,
    @startGame_host [(1234, annAnsweredRoom)] "host" 1234 annAnsweredRoom 0 rfl rfl,
    scoreOf_startedRoom annAnsweredRoom 0 "ann"⟩

theorem score_kept_unless_answer_or_start_witness :
    scoreOf (advancedRoom annAnsweredRoom 5) "ann" = scoreOf annAnsweredRoom "ann" ∧
    (annAnsweredRoom.hostSocketId = "host" → ∀ now, ∃ out,
      startGame [(1234, annAnsweredRoom)] "host" 1234 now =
        .ok (Obj.set [(1234, annAnsweredRoom)] 1234 (startedRoom annAnsweredRoom now), out) ∧
      scoreOf (startedRoom annAnsweredRoom now) "ann" = 0) :=
  score_kept_unless_answer_or_start sampleTests [(1234, annAnsweredRoom)]
    [(1234, advancedRoom annAnsweredRoom 5)] "host" (.advanceQuestion 1234 5) _ 1234
    annAnsweredRoom (advancedRoom annAnsweredRoom 5) "ann" reachable_annAnsweredRoom
    (@advanceQuestion_host_next [(1234, annAnsweredRoom)] "host" 1234 annAnsweredRoom 5 rfl
      rfl (by decide))
    rfl rfl (fun _ h => by cases h) (fun _ _ h => by cases h)

/-! ## advance-question before the game has started -/

/-- C15, as stated, fails: in the Lobby room just created on the two-question sample
test, `advance-question` from the host is carried out; it moves `currentQuestionIndex`
from -1 to 0 while `gameStarted` stays false, so a reachable room has
`currentQuestionIndex ≥ 0` without `gameStarted`. -/
theorem advanceQuestion_in_lobby_moves_index :
    Reachable sampleTests [(1234, lobbyRoom)] ∧
    lobbyRoom.gameStarted = false ∧ lobbyRoom.currentQuestionIndex = -1 ∧
    (∃ out, handle sampleTests [(1234, lobbyRoom)] "host" (.advanceQuestion 1234 0) =
      .ok ([(1234, advancedRoom lobbyRoom 0)], out)) ∧
    Reachable sampleTests [(1234, advancedRoom lobbyRoom 0)] ∧
    (advancedRoom lobbyRoom 0).currentQuestionIndex = 0 ∧
    (advancedRoom lobbyRoom 0).gameStarted = false := by
  have hrun := @advanceQuestion_host_next [(1234, lobbyRoom)] "host" 1234 lobbyRoom 0 rfl rfl
    (by decide)
  exact ⟨reachable_lobbyRoom, rfl, rfl, ⟨_, hrun⟩,
    Reachable.step "host" (.advanceQuestion 1234 0) reachable_lobbyRoom hrun, rfl, rfl⟩

/-- C15, amended. `advance-question` is not restricted to rooms in progress: for a
Lobby room (`gameStarted = false`, `currentQuestionIndex = -1`) whose test has at least
one question, `advance-question` from the host moves `currentQuestionIndex` to 0 and
leaves `gameStarted` false and `gameEnded` as it was; when the test has no question it
sets `gameEnded`.  What holds in every reachable registry is the converse implication:
`gameStarted = true` implies `currentQuestionIndex ≥ 0`. -/
theorem advanceQuestion_in_lobby (rooms : Rooms) (socketId : SocketId)
    (roomCode : RoomCode) (room : Room) (now : Int)
    (hroom : Obj.get? rooms roomCode = some room) (hhost : room.hostSocketId = socketId)
    (hstarted : room.gameStarted = false) (hidx : room.currentQuestionIndex = -1) :
    (room.test.questions ≠ [] →
      ∃ out, advanceQuestion rooms socketId roomCode now =
          .ok (Obj.set rooms roomCode (advancedRoom room now), out) ∧
        (advancedRoom room now).currentQuestionIndex = 0 ∧
        (advancedRoom room now).gameStarted = false ∧
        (advancedRoom room now).gameEnded = room.gameEnded) ∧
    (room.test.questions = [] →
      ∃ out, advanceQuestion rooms socketId roomCode now =
        .ok (Obj.set rooms roomCode { room with gameEnded := true }, out)) ∧
    (∀ (tests : Tests) (reached : Rooms), Reachable tests reached →
      ∀ code r, (code, r) ∈ reached → r.gameStarted = true → 0 ≤ r.currentQuestionIndex) := by
  refine ⟨?_, ?_, ?_⟩
  · intro hne
    have hlen : 1 ≤ room.test.questions.length := List.length_pos.mpr hne
    have hnext : ¬ room.currentQuestionIndex ≥ (room.test.questions.length : Int) - 1 := by
      rw [hidx]; omega
    refine ⟨_, advanceQuestion_host_next now hroom hhost hnext, ?_, hstarted, rfl⟩
    show room.currentQuestionIndex + 1 = 0
    rw [hidx]; rfl
  · intro hnil
    have hlast : room.currentQuestionIndex ≥ (room.test.questions.length : Int) - 1 := by
      rw [hidx, hnil]; simp
    exact ⟨_, advanceQuestion_host_last now hroom hhost hlast⟩
  · intro tests reached hreach code r hmem
    have hinv := reachable_lifecycle
      (fun _ index started _ => -1 ≤ index ∧ (started = true → 0 ≤ index))
      (by intro _ _ _; exact ⟨le_refl _, by simp⟩)
      (by intro _ _ _ _ _; exact ⟨by omega, fun _ => le_refl _⟩)
      (by intro _ index _ _ h _; exact ⟨by omega, fun _ => by omega⟩)
      (by intro _ _ _ _ h; exact h)
      hreach (code, r) hmem
    exact hinv.2

theorem advanceQuestion_in_lobby_witness :
    ∃ out, advanceQuestion [(1234, lobbyRoom)] "host" 1234 0 =
        .ok (Obj.set [(1234, lobbyRoom)] 1234 (advancedRoom lobbyRoom 0), out) ∧
      (advancedRoom lobbyRoom 0).currentQuestionIndex = 0 ∧
      (advancedRoom lobbyRoom 0).gameStarted = false ∧
      (advancedRoom lobbyRoom 0).gameEnded = lobbyRoom.gameEnded :=
  (advanceQuestion_in_lobby [(1234, lobbyRoom)] "host" 1234 lobbyRoom 0 rfl rfl rfl rfl).1
    (by decide)

/-! ## reveal-answer -/

/-- C16, at a failing input. In the started sample room, `reveal-answer` from the host
emits nothing and changes nothing, and `reveal-answer` from a player, who is not the
host, emits nothing either: the server registers no listener for the event that the
client sends. -/
theorem revealAnswer_is_dropped :
    Reachable sampleTests [(1234, annStartedRoom)] ∧
    annStartedRoom.hostSocketId = "host" ∧
    questionAt annStartedRoom.test.questions annStartedRoom.currentQuestionIndex =
      some firstQuestion ∧
    handle sampleTests [(1234, annStartedRoom)] "host" (.revealAnswer 1234) =
      .ok ([(1234, annStartedRoom)], []) ∧
    handle sampleTests [(1234, annStartedRoom)] "ann" (.revealAnswer 1234) =
      .ok ([(1234, annStartedRoom)], []) :=
  ⟨reachable_annStartedRoom, rfl, rfl, rfl, rfl⟩

/-! ## The cap on the cumulative score -/

/-- C17, at a failing input. "ann" answers the first question correctly at once
(10 points), leaves the room, joins again and answers the same question again: the
second answer is accepted, because `leave-room` removed her Answer but kept her score.
The room is in progress on question index 0, every elapsed time is 0, and her cumulative
score is 20, above the cap `(currentQuestionIndex + 1) * 10 = 10`. -/
theorem rejoin_allows_second_award :
    Reachable sampleTests [(1234, annAnsweredTwiceRoom)] ∧
    handle sampleTests [(1234, annAnsweredRoom)] "ann" (.leaveRoom 1234) =
      .ok ([(1234, annLeftRoom)], [(.room 1234, .playerLeft "ann" 0)]) ∧
    scoreOf annLeftRoom "ann" = 10 ∧
    Obj.get? annRejoinedRoom.playerAnswers "ann" = none ∧
    (∃ out, handle sampleTests [(1234, annRejoinedRoom)] "ann" (.submitAnswer 1234 "b" 0) =
      .ok ([(1234, annAnsweredTwiceRoom)], out)) ∧
    annAnsweredTwiceRoom.gameStarted = true ∧ annAnsweredTwiceRoom.gameEnded = false ∧
    annAnsweredTwiceRoom.currentQuestionIndex = 0 ∧
    scoreOf annAnsweredTwiceRoom "ann" = 20 ∧
    ¬ scoreOf annAnsweredTwiceRoom "ann" ≤
        (((annAnsweredTwiceRoom.currentQuestionIndex + 1) * 10 : Int) : ℚ) := by
  refine ⟨reachable_annAnsweredTwiceRoom,
    @leaveRoom_player [(1234, annAnsweredRoom)] "ann" 1234 annAnsweredRoom rfl (by decide) rfl,
    scoreOf_annAnsweredRoom, rfl,
    ⟨_, @submitAnswer_accepted [(1234, annRejoinedRoom)] "ann" 1234 annRejoinedRoom
      { socketId := "ann", displayName := "Ann" } firstQuestion "b" 0 rfl rfl (by decide)
      rfl rfl rfl rfl⟩,
    rfl, rfl, rfl, scoreOf_annAnsweredTwiceRoom, ?_⟩
  rw [scoreOf_annAnsweredTwiceRoom]
  have h : annAnsweredTwiceRoom.currentQuestionIndex = 0 := rfl
  rw [h]
  norm_num

end Dxdy
